import Mathlib

/-! Verification of the NooTasks query-agent subsystem.

The definitions below are a shallow embedding of the TypeScript source:
`src/agent/queryProcessor.ts` (task retrieval pipeline), the statistics
engine (`generateOverdueStats`), and the conversational orchestrator
(`Agent.handleMessage`).  JavaScript semantics that matter to the claims
are modelled explicitly: string truthiness (the empty string is falsy),
`Number(...)` parsing of date strings (`NaN` yields an invalid luxon
`DateTime`, and every comparison against `NaN` is false), insertion-ordered
`Map`/`Set`, and the stability of `Array.prototype.sort`.

Timestamps are epoch milliseconds (`Int`).  The configured timezone is
modelled as a fixed offset `tz` in milliseconds added to an instant to get
local time; luxon's `startOf('day')` becomes `startOfDayMs` and the
`yyyy-MM-dd` calendar-day string is modelled by the injective local day
index `localDay` (two instants format equal iff they fall on the same
local calendar day).
-/

namespace NooTasks

/-! Section: JavaScript string helpers -/

/-- Lower-casing as performed by JavaScript `toLowerCase` on the character
ranges that occur in this code base (ASCII plus the Cyrillic letters used
by the Ukrainian/Russian keyword lists). -/
def jsLowerChar (c : Char) : Char :=
  if 'A' ≤ c ∧ c ≤ 'Z' then Char.ofNat (c.toNat + 32)
  else if 0x410 ≤ c.toNat ∧ c.toNat ≤ 0x42F then Char.ofNat (c.toNat + 32)
  else if c.toNat = 0x406 then Char.ofNat 0x456
  else if c.toNat = 0x407 then Char.ofNat 0x457
  else if c.toNat = 0x404 then Char.ofNat 0x454
  else if c.toNat = 0x490 then Char.ofNat 0x491
  else if c.toNat = 0x401 then Char.ofNat 0x451
  else c

def jsToLower (s : String) : String := String.mk (s.data.map jsLowerChar)

/-- Code: `pat` occurs at the start of `l`. -/
def listStarts : List Char → List Char → Bool
  | [], _ => true
  | _ :: _, [] => false
  | a :: as, b :: bs => a == b && listStarts as bs

/-- Code: `pat` occurs somewhere inside `l` (JavaScript `String.includes`). -/
def listContainsSeq (pat : List Char) : List Char → Bool
  | [] => pat.isEmpty
  | b :: bs => listStarts pat (b :: bs) || listContainsSeq pat bs

/-- JavaScript `s.includes(pat)`. -/
def strIncludes (s pat : String) : Bool := listContainsSeq pat.data s.data

/-- JavaScript `s.startsWith(pat)`. -/
def strStarts (s pat : String) : Bool := listStarts pat.data s.data

/-- JavaScript string truthiness for an optional string field:
`undefined`/`null` and the empty string are falsy. -/
def truthyOpt : Option String → Bool
  | none => false
  | some s => !s.isEmpty

/-- JavaScript `a || b` for strings. -/
def jsOrStr (a b : String) : String := if a.isEmpty then b else a

/-- Decimal digits of a positive natural number; fuel-structural (`n`
itself bounds the digit count) so that concrete proofs can evaluate it. -/
def natDigitsAux : Nat → Nat → List Char
  | 0, _ => []
  | _ + 1, 0 => []
  | fuel + 1, m + 1 => natDigitsAux fuel ((m + 1) / 10) ++ [Char.ofNat (48 + (m + 1) % 10)]

def natDigits (n : Nat) : List Char := natDigitsAux n n

/-- JavaScript `String(n)` for a non-negative integer. -/
def natToStr (n : Nat) : String := if n = 0 then "0" else String.mk (natDigits n)

/-- JavaScript `String(i)` for an integer. -/
def intToStr (i : Int) : String :=
  if i < 0 then "-" ++ natToStr i.natAbs else natToStr i.natAbs

/-- JavaScript `Array.prototype.join(sep)`. -/
def strJoin (sep : String) : List String → String
  | [] => ""
  | [a] => a
  | a :: b :: rest => a ++ sep ++ strJoin sep (b :: rest)

/-- Concatenation of string pieces (`formattedText += ...` in a loop). -/
def strConcat : List String → String
  | [] => ""
  | a :: rest => a ++ strConcat rest

/-! Section: HTML escaping (`Agent`'s local `escapeHtml` / `escapeAttr`) -/

/-- Code: `value.replace(/&/g,"&amp;").replace(/</g,"&lt;").replace(/>/g,"&gt;")`;
the sequential global replaces are equivalent to this per-character map
because the replacement texts contain no character that a later pass
rewrites into markup. -/
def escapeHtmlList : List Char → List Char
  | [] => []
  | c :: cs =>
    (if c = '&' then "&amp;".data
     else if c = '<' then "&lt;".data
     else if c = '>' then "&gt;".data
     else [c]) ++ escapeHtmlList cs

def escapeHtml (s : String) : String := String.mk (escapeHtmlList s.data)

/-- Code: `value.replace(/&/g,"&amp;").replace(/"/g,"&quot;")`. -/
def escapeAttrList : List Char → List Char
  | [] => []
  | c :: cs =>
    (if c = '&' then "&amp;".data
     else if c = '"' then "&quot;".data
     else [c]) ++ escapeAttrList cs

def escapeAttr (s : String) : String := String.mk (escapeAttrList s.data)

/-- Number of raw `<` characters in a string: the measure used to show
that interpolated text cannot inject additional HTML tags. -/
def ltCount (s : String) : Nat := s.data.countP (· == '<')

/-! Section: Timezone-sensitive date arithmetic -/

def msPerDay : Int := 86400000

/-- Index of the local calendar day containing an instant, for a zone with
fixed offset `tz` milliseconds.  Models the `yyyy-MM-dd` label produced by
`DateTime.toFormat`: two instants get equal labels iff their indices agree. -/
def localDay (tz ms : Int) : Int := (ms + tz).fdiv msPerDay

/-- The instant of local midnight of the day containing `ms`:
luxon's `DateTime.fromMillis(ms).setZone(zone).startOf('day')`. -/
def startOfDayMs (tz ms : Int) : Int := localDay tz ms * msPerDay - tz

/-- A JavaScript `string | null` field holding an epoch-millis timestamp.
`num ms` is a non-empty numeric string with `Number(s) = ms`; `nonNum` is a
non-empty string with `Number(s) = NaN` (luxon then yields an invalid
`DateTime`, and every comparison involving it is false); `empty` is `""`,
which is falsy but non-null. -/
inductive JsDateVal where
  | null
  | empty
  | num (ms : Int)
  | nonNum
  deriving DecidableEq, Repr

/-- JavaScript truthiness of the field. -/
def JsDateVal.truthy : JsDateVal → Bool
  | .num _ => true
  | .nonNum => true
  | _ => false

/-! Section: Task records -/

/-- Code: `task.status`: a plain string at the source, or a nested status object
`{ status: string, ... }`.  An object without a `status` key behaves like
`objVal ""` for every reader in this code base. -/
inductive StatusField where
  | strVal (s : String)
  | objVal (s : String)
  deriving DecidableEq, Repr

/-- Code: `QueryProcessor.getStatusString`: the normalizing accessor
(`typeof status === 'string' ? status : status?.status || ''`). -/
def getStatusString : StatusField → String
  | .strVal s => s
  | .objVal s => s

/-- The statistics engine's status reader `task.status?.status || ''`:
a plain string has no `.status` property, so it reads as `''`. -/
def statusStatusOrEmpty : StatusField → String
  | .strVal _ => ""
  | .objVal s => s

/-- A task assignee: raw API objects carry `username`/`email`/`id`, but the
statistics engine also tolerates a bare string. -/
inductive Assignee where
  | strVal (s : String)
  | objVal (username email : Option String) (id : Option Int)
  deriving DecidableEq, Repr

/-- Code: `typeof a === 'string' ? a : (a.username || a.email || String(a.id || 'Unknown'))`. -/
def Assignee.jsName : Assignee → String
  | .strVal s => s
  | .objVal u e i =>
    if truthyOpt u then u.getD ""
    else if truthyOpt e then e.getD ""
    else match i with
      | some n => if n = 0 then "Unknown" else intToStr n
      | none => "Unknown"

/-- Normalized external task record (`TaskData` in `queryTypes.ts`); the
location objects are represented by their `name` fields, which is all the
core reads from them. -/
structure TaskData where
  id : String
  name : String
  status : StatusField
  due_date : JsDateVal
  date_created : JsDateVal
  assignees : List Assignee
  listName : Option String
  folderName : Option String
  spaceName : Option String
  url : Option String
  shortUrl : Option String
  deriving DecidableEq, Repr

/-! Section: Task retrieval pipeline (`QueryProcessor`) -/

/-- The "active" status vocabulary of `filterStuck`. -/
def activeStatuses : List String :=
  ["сьогодні", "today", "urgent", "в роботі", "in progress",
   "задачі на сьогодні", "на затвердження", "допрацювати",
   "усі задачі", "all tasks", "to do", "open", "backlog"]

/-- The "working" vocabulary of `filterInProgress`. -/
def progressKeywords : List String :=
  ["in progress", "progress", "робот", "в роботі", "в процесі", "in work", "working"]

/-- Predicate of `filterInProgress`. -/
def inProgressPred (t : TaskData) : Bool :=
  let statusName := jsToLower (getStatusString t.status)
  progressKeywords.any (fun kw => strIncludes statusName kw)

/-- Predicate of `filterOverdue`: `if (!task.due_date) return false;` then
`due.startOf('day') < todayStart` as a comparison of instants.  A
non-numeric due date yields an invalid `DateTime`, whose comparisons are
all false. -/
def overduePred (tz now : Int) (t : TaskData) : Bool :=
  match t.due_date with
  | .num ms => startOfDayMs tz ms < startOfDayMs tz now
  | .nonNum => false
  | .null => false
  | .empty => false

/-- Predicate of `filterDueToday`: equality of the two `yyyy-MM-dd` labels,
i.e. of the local calendar day indices.  An invalid due date formats as
`"Invalid DateTime"`, which never equals a calendar-day label. -/
def dueTodayPred (tz now : Int) (t : TaskData) : Bool :=
  match t.due_date with
  | .num ms => localDay tz ms == localDay tz now
  | .nonNum => false
  | .null => false
  | .empty => false

/-- Code: `Math.floor(now.diff(created, 'days').days) >= 1`, guarded by checks 3
and 4 of `filterStuck`: a missing, empty or non-numeric creation date is
rejected (`!created || !created.isValid`). -/
def createdAtLeastOneDayOld (now : Int) : JsDateVal → Bool
  | .num ms => 1 ≤ (now - ms).fdiv msPerDay
  | _ => false

/-- Predicate of `filterStuck`.  Check 1 uses JavaScript truthiness of
`task.due_date`; the `try/catch` around the checks is dead in this model
because none of the modelled operations throw. -/
def stuckPred (_tz now : Int) (t : TaskData) : Bool :=
  if t.due_date.truthy then false
  else
    let statusName := jsToLower (getStatusString t.status)
    if !(activeStatuses.any (fun s => strIncludes statusName s)) then false
    else createdAtLeastOneDayOld now t.date_created

def filterInProgress (tasks : List TaskData) : List TaskData :=
  tasks.filter inProgressPred

def filterOverdue (tz now : Int) (tasks : List TaskData) : List TaskData :=
  tasks.filter (overduePred tz now)

def filterStuck (tz now : Int) (tasks : List TaskData) : List TaskData :=
  tasks.filter (stuckPred tz now)

def filterDueToday (tz now : Int) (tasks : List TaskData) : List TaskData :=
  tasks.filter (dueTodayPred tz now)

/-- The `filterType` strings accepted by `applyFilters`; `other` stands for
any string outside the known five (the `default` branch). -/
inductive FilterJS where
  | overdue
  | stuck
  | dueToday
  | inProgress
  | noneF
  | other
  deriving DecidableEq, Repr

def applyFilters (tz now : Int) (tasks : List TaskData) : FilterJS → List TaskData
  | .inProgress => filterInProgress tasks
  | .overdue => filterOverdue tz now tasks
  | .stuck => filterStuck tz now tasks
  | .dueToday => filterDueToday tz now tasks
  | .noneF => tasks
  | .other => tasks

/-- Result of one `GET .../task` call: the parsed `tasks` array (absence of
the envelope reads as `[]` via `response.tasks || []`), or a raised error
(non-2xx response or transport failure). -/
inductive PageResult where
  | ok (tasks : List TaskData)
  | err
  deriving DecidableEq, Repr

/-- The paginated per-person loop of `loadPersonTasks`: `while (page < 10)`,
push the page, stop on an empty page, and treat a page error as the
stream end.  Returns the accumulated tasks and the number of page
fetches issued. -/
def loadPersonTasksGo (server : Nat → PageResult) (page : Nat)
    (acc : List TaskData) (fetches : Nat) : List TaskData × Nat :=
  if page < 10 then
    match server page with
    | .err => (acc, fetches + 1)
    | .ok ts =>
      if ts.isEmpty then (acc ++ ts, fetches + 1)
      else loadPersonTasksGo server (page + 1) (acc ++ ts) (fetches + 1)
  else (acc, fetches)
termination_by 10 - page

def loadPersonTasks (server : Nat → PageResult) : List TaskData × Nat :=
  loadPersonTasksGo server 0 [] 0

/-- An entry of the static department directory; `list_ids` may be absent. -/
structure DeptConfig where
  list_ids : Option (List String)
  deriving DecidableEq, Repr

/-- Code: `loadDepartmentTasks`: unknown department key or missing `list_ids`
yields `[]`; each list fetch failure is skipped (partial results). -/
def loadDepartmentTasks (listFetch : String → PageResult)
    (depts : List (String × DeptConfig)) (key : String) : List TaskData :=
  match depts.lookup key with
  | none => []
  | some d =>
    match d.list_ids with
    | none => []
    | some ids =>
      ids.foldl (fun acc lid =>
        match listFetch lid with
        | .ok ts => acc ++ ts
        | .err => acc) []

/-- Static member roster entry (`members.json`). -/
structure MemberConfig where
  id : Int
  name : String
  username : Option String
  email : Option String
  aliases : List String
  role : Option String
  exclude_from_counts : Bool
  deriving DecidableEq, Repr

/-- Code: `loadAllTasks`: one person resolution per roster member; per-member
failures are tolerated (and cannot occur, since `loadPersonTasks` catches
every page error itself). -/
def loadAllTasks (personPages : String → Nat → PageResult)
    (membersCfg : List MemberConfig) : List TaskData :=
  membersCfg.foldl (fun acc m => acc ++ (loadPersonTasks (personPages (intToStr m.id))).1) []

inductive EntityJS where
  | person
  | department
  | all
  | other
  deriving DecidableEq, Repr

inductive OperationJS where
  | show
  | count
  | stats
  deriving DecidableEq, Repr

structure Classification where
  entityType : EntityJS
  entityId : Option String
  entityName : Option String
  filterType : FilterJS
  operation : OperationJS
  deriving DecidableEq, Repr

/-- Template interpolation of a possibly-`undefined` string. -/
def jsParamStr (o : Option String) : String := o.getD "undefined"

/-- The two ClickUp REST surfaces the pipeline consumes. -/
structure ClickUpEnv where
  personPages : String → Nat → PageResult
  listFetch : String → PageResult

/-- Code: `QueryProcessor.processQuery`: load by entity type, then filter.  The
only uncaught throw is the `default` branch of `loadTasks` for an
unrecognized entity type. -/
def processQuery (env : ClickUpEnv) (depts : List (String × DeptConfig))
    (membersCfg : List MemberConfig) (tz now : Int) (c : Classification) :
    Except String (List TaskData) :=
  match c.entityType with
  | .person =>
    .ok (applyFilters tz now (loadPersonTasks (env.personPages (jsParamStr c.entityId))).1 c.filterType)
  | .department =>
    .ok (applyFilters tz now (loadDepartmentTasks env.listFetch depts (jsParamStr c.entityId)) c.filterType)
  | .all =>
    .ok (applyFilters tz now (loadAllTasks env.personPages membersCfg) c.filterType)
  | .other => .error "Unknown entity type"

/-! Section: Statistics engine (`generateOverdueStats`) -/

/-- The classifications computed inline by the statistics engine for one
task (lines 29–45 of the statistics module).  They read status through
`task.status?.status || ''`, not through `getStatusString`. -/
def statsStatusName (t : TaskData) : String := jsToLower (statusStatusOrEmpty t.status)

/-- Code: `isHardOverdue = due ? due.startOf('day') < todayStart : false`, where
`due` is built only from a truthy `due_date` and an invalid `DateTime`
compares as false. -/
def statsIsHardOverdue (tz now : Int) (t : TaskData) : Bool :=
  match t.due_date with
  | .num ms => startOfDayMs tz ms < startOfDayMs tz now
  | .nonNum => false
  | .null => false
  | .empty => false

/-- Code: `isDueToday = dueDateStr === todayStr` with `dueDateStr = null` for a
missing due date and `"Invalid DateTime"` for a non-numeric one. -/
def statsIsDueToday (tz now : Int) (t : TaskData) : Bool :=
  match t.due_date with
  | .num ms => localDay tz ms == localDay tz now
  | .nonNum => false
  | .null => false
  | .empty => false

/-- Code: `daysOld >= 1` where `daysOld = created ? Math.floor(now.diff(created,
'days').days) : 0`; an invalid creation date makes `daysOld` `NaN` and the
comparison false. -/
def statsDaysOldGe1 (now : Int) : JsDateVal → Bool
  | .num ms => 1 ≤ (now - ms).fdiv msPerDay
  | _ => false

/-- Code: `isStuck = !due && isActiveStatus && daysOld >= 1`. -/
def statsIsStuck (_tz now : Int) (t : TaskData) : Bool :=
  !t.due_date.truthy
    && activeStatuses.any (fun s => strIncludes (statsStatusName t) s)
    && statsDaysOldGe1 now t.date_created

/-- Code: `task.list?.name || task.folder?.name || task.space?.name || 'Без відділу'`. -/
def taskDepartment (t : TaskData) : String :=
  if truthyOpt t.listName then t.listName.getD ""
  else if truthyOpt t.folderName then t.folderName.getD ""
  else if truthyOpt t.spaceName then t.spaceName.getD ""
  else "Без відділу"

/-- Per-assignee accumulator of the `statsByAssignee` map. -/
structure AssigneeAcc where
  hardOverdue : Nat
  stuck : Nat
  dueToday : Nat
  departments : List String
  deriving DecidableEq, Repr

/-- Code: `Set.prototype.add`: insertion-ordered, deduplicating. -/
def addDept (l : List String) (d : String) : List String :=
  if l.contains d then l else l ++ [d]

/-- Upsert into the insertion-ordered `Map<string, ...>`: a fresh name is
appended, an existing entry is updated in place. -/
def statsInsert (name dept : String) (ho st dt : Bool) :
    List (String × AssigneeAcc) → List (String × AssigneeAcc)
  | [] =>
    [(name, { hardOverdue := if ho then 1 else 0, stuck := if st then 1 else 0,
              dueToday := if dt then 1 else 0, departments := [dept] })]
  | (k, v) :: rest =>
    if k = name then
      (k, { hardOverdue := v.hardOverdue + (if ho then 1 else 0),
            stuck := v.stuck + (if st then 1 else 0),
            dueToday := v.dueToday + (if dt then 1 else 0),
            departments := addDept v.departments dept }) :: rest
    else (k, v) :: statsInsert name dept ho st dt rest

/-- The body of the main `for (const task of allTasks)` loop: unassigned
tasks are skipped, and so is an assignee whose resolved name is falsy or
`'Unknown'`. -/
def statsForTask (tz now : Int) (m : List (String × AssigneeAcc)) (t : TaskData) :
    List (String × AssigneeAcc) :=
  if t.assignees.isEmpty then m
  else
    t.assignees.foldl (fun m a =>
      let name := a.jsName
      if name = "" ∨ name = "Unknown" then m
      else statsInsert name (taskDepartment t) (statsIsHardOverdue tz now t)
        (statsIsStuck tz now t) (statsIsDueToday tz now t) m) m

def statsByAssignee (tz now : Int) (tasks : List TaskData) :
    List (String × AssigneeAcc) :=
  tasks.foldl (statsForTask tz now) []

/-- One row of the leaderboard before rendering. -/
structure StatEntry where
  name : String
  total : Nat
  hardOverdue : Nat
  stuck : Nat
  dueToday : Nat
  departments : List String
  deriving DecidableEq, Repr

/-- Code: `Array.from(statsByAssignee.entries()).map(...)`: insertion (first-seen)
order, with `total` the sum of the three counters. -/
def statEntries (tz now : Int) (tasks : List TaskData) : List StatEntry :=
  (statsByAssignee tz now tasks).map (fun p =>
    { name := p.1, total := p.2.hardOverdue + p.2.stuck + p.2.dueToday,
      hardOverdue := p.2.hardOverdue, stuck := p.2.stuck,
      dueToday := p.2.dueToday, departments := p.2.departments })

/-- The comparator `(a, b) => b.total - a.total`: `a` may precede `b` iff
`b.total ≤ a.total`. -/
def entryLE (a b : StatEntry) : Bool := b.total ≤ a.total

/-- Code: `.filter(s => s.total > 0).sort((a, b) => b.total - a.total)`.
`Array.prototype.sort` is stable, so it is modelled by the stable
`List.mergeSort` with the same ordering; a stable sort's output is uniquely
determined by the ordering, so the two agree exactly. -/
def sortedStats (tz now : Int) (tasks : List TaskData) : List StatEntry :=
  ((statEntries tz now tasks).filter (fun s => 0 < s.total)).mergeSort entryLE

def medalFor (i : Nat) : String :=
  if i = 0 then "🥇" else if i = 1 then "🥈" else if i = 2 then "🥉"
  else natToStr (i + 1) ++ "."

def statParts (s : StatEntry) : List String :=
  (if 0 < s.hardOverdue then ["🔴" ++ natToStr s.hardOverdue] else []) ++
  (if 0 < s.stuck then ["🟠" ++ natToStr s.stuck] else []) ++
  (if 0 < s.dueToday then ["🟡" ++ natToStr s.dueToday] else [])

/-- Code: `` `${medal} <b>${s.name}</b> — ${s.total} (${parts.join(' + ')})` ``.
The assignee name is embedded with no escaping. -/
def statLine (i : Nat) (s : StatEntry) : String :=
  medalFor i ++ " <b>" ++ s.name ++ "</b> — " ++ natToStr s.total ++ " (" ++
    strJoin " + " (statParts s) ++ ")"

def statsHeader (n : Nat) : String :=
  "📊 <b>Топ-" ++ natToStr (min n 5) ++ " за проблемними задачами:</b>\n"

/-- The `for (let i = 0; i < Math.min(sorted.length, 5); i++)` loop. -/
def statsEntryLines (sorted : List StatEntry) : List String :=
  (sorted.take 5).enum.map (fun p => statLine p.1 p.2)

def statsMoreLines (sorted : List StatEntry) : List String :=
  if 5 < sorted.length then
    ["\n<i>...та ще " ++ natToStr (sorted.length - 5) ++ " співробітників</i>"]
  else []

def noProblemsMsg : String := "✅ Проблемних задач ні у кого немає!"

/-- Code: `generateOverdueStats(allTasks)`. -/
def generateOverdueStats (tz now : Int) (tasks : List TaskData) : String :=
  let sorted := sortedStats tz now tasks
  if sorted.isEmpty then noProblemsMsg
  else strJoin "\n" (statsHeader sorted.length :: statsEntryLines sorted ++ statsMoreLines sorted)

/-! Section: Team-directory shortcut renderers (`buildTeamInfoResponse`)

The regex-based intent detection of `buildTeamInfoResponse` is not modelled
(it only chooses which of the four templated answers is produced); the four
renderers below embed lines 106–130 of the orchestrator, which are the part
the escaping claim is about. -/

def visibleMembers (ms : List MemberConfig) : List MemberConfig :=
  ms.filter (fun m => !m.exclude_from_counts)

/-- Code: `m.role || "роль не вказана"`. -/
def roleTextOf (m : MemberConfig) : String :=
  if truthyOpt m.role then m.role.getD "" else "роль не вказана"

def renderRoleOfMember (m : MemberConfig) : String :=
  "👤 <b>" ++ escapeHtml m.name ++ "</b>\n<b>Роль:</b> " ++ escapeHtml (roleTextOf m)

def renderRolesList (ms : List MemberConfig) : String :=
  "👥 <b>Ролі в команді</b>\n\n" ++
    strJoin "\n" ((visibleMembers ms).map (fun m =>
      "• <b>" ++ escapeHtml m.name ++ "</b> — " ++ escapeHtml (roleTextOf m)))

def renderTeamCount (ms : List MemberConfig) : String :=
  "👥 <b>У команді: " ++ natToStr (visibleMembers ms).length ++ "</b>"

def renderTeamList (ms : List MemberConfig) : String :=
  "👥 <b>Команда</b>\n\n" ++
    strJoin "\n" ((visibleMembers ms).map (fun m => "• " ++ escapeHtml m.name)) ++
    "\n\n<b>Всього:</b> " ++ natToStr (visibleMembers ms).length

/-! Section: The `load_and_filter_tasks` answer formatter

Embeds lines 455–515 of the orchestrator.  `toLocaleDateString('uk-UA',
{day:'2-digit', month:'2-digit'})` renders `dd.mm` of the calendar date in
the process's system timezone, modelled as the fixed offset `sysTz`; the
civil date is computed from the day index by the standard
days-to-civil-date conversion. -/

/-- Gregorian `(year, month, day)` of a day index counted from 1970-01-01. -/
def civilFromDays (z : Int) : Int × Nat × Nat :=
  let z' := z + 719468
  let era := z'.fdiv 146097
  let doe := (z' - era * 146097).toNat
  let yoe := (doe - doe / 1460 + doe / 36524 - doe / 146096) / 365
  let doy := doe - (365 * yoe + yoe / 4 - yoe / 100)
  let mp := (5 * doy + 2) / 153
  let d := doy - (153 * mp + 2) / 5 + 1
  let m := if mp < 10 then mp + 3 else mp - 9
  ((yoe : Int) + era * 400 + (if m ≤ 2 then 1 else 0), m, d)

def twoDigit (n : Nat) : String :=
  if n < 10 then "0" ++ natToStr n else natToStr n

def formatDueDM (sysTz ms : Int) : String :=
  let c := civilFromDays (localDay sysTz ms)
  twoDigit c.2.2 ++ "." ++ twoDigit c.2.1

/-- Code: `task.due_date ? new Date(Number(task.due_date)).toLocaleDateString(...) : '—'`. -/
def displayDue (sysTz : Int) : JsDateVal → String
  | .num ms => formatDueDM sysTz ms
  | .nonNum => "Invalid Date"
  | .null => "—"
  | .empty => "—"

/-- Code: `typeof task.status === 'string' ? task.status : task.status?.status || '—'`. -/
def displayStatus : StatusField → String
  | .strVal s => s
  | .objVal s => jsOrStr s "—"

/-- Code: `task.url || task.short_url || (task.id ? url-from-id : '')`. -/
def taskUrlRaw (t : TaskData) : String :=
  if truthyOpt t.url then t.url.getD ""
  else if truthyOpt t.shortUrl then t.shortUrl.getD ""
  else if !t.id.isEmpty then "https://app.clickup.com/t/" ++ t.id
  else ""

/-- The four `formattedText +=` lines of the inner task loop. -/
def renderTaskBlock (sysTz : Int) (t : TaskData) : String :=
  let taskUrl := if (taskUrlRaw t).isEmpty then "" else escapeAttr (taskUrlRaw t)
  "<b>Таска:</b> " ++ escapeHtml t.name ++ "\n" ++
  "<b>Статус:</b> " ++ escapeHtml (jsOrStr (displayStatus t.status) "—") ++ "\n" ++
  "<b>Дедлайн:</b> " ++ escapeHtml (displayDue sysTz t.due_date) ++ "\n" ++
  (if taskUrl.isEmpty then "🔗 Відкрити\n\n"
   else "<a href=\"" ++ taskUrl ++ "\">🔗 Відкрити</a>\n\n")

/-- Code: `task.space?.name || task.list?.name || task.folder?.name || 'Без проєкту'`. -/
def projectNameOf (t : TaskData) : String :=
  if truthyOpt t.spaceName then t.spaceName.getD ""
  else if truthyOpt t.listName then t.listName.getD ""
  else if truthyOpt t.folderName then t.folderName.getD ""
  else "Без проєкту"

/-- Insertion-ordered `Map<string, any[]>` with `push` on an existing key. -/
def groupUpsert (k : String) (t : TaskData) :
    List (String × List TaskData) → List (String × List TaskData)
  | [] => [(k, [t])]
  | (k', ts) :: rest =>
    if k' = k then (k', ts ++ [t]) :: rest else (k', ts) :: groupUpsert k t rest

def groupByProject (ts : List TaskData) : List (String × List TaskData) :=
  ts.foldl (fun g t => groupUpsert (projectNameOf t) t g) []

def renderGroup (sysTz : Int) (g : String × List TaskData) : String :=
  "<b>Проект:</b> " ++ escapeHtml g.1 ++ "\n" ++
    strConcat (g.2.map (renderTaskBlock sysTz))

/-- Code: `filterTitles[filterType] || '📋 Задачі'`. -/
def filterTitle : FilterJS → String
  | .stuck => "⏳ Зависли без руху"
  | .overdue => "🔴 Прострочені"
  | .dueToday => "📅 На сьогодні"
  | .inProgress => "🟢 В роботі"
  | .noneF => "📋 Всі задачі"
  | .other => "📋 Задачі"

/-- Code: `entityName || entityId || '—'`. -/
def headerNameOf (entityName entityId : Option String) : String :=
  if truthyOpt entityName then entityName.getD ""
  else if truthyOpt entityId then entityId.getD ""
  else "—"

def peopleUrl (teamId : String) : String :=
  "https://app.clickup.com/" ++ teamId ++ "/teams-pulse/people"

def noTasksMsg : String := "✅ Задач не знайдено!"

/-- The full formatted answer returned directly to the user by the
`load_and_filter_tasks` branch (display limit 25, two-level grouping). -/
def formatTasksAnswer (sysTz : Int) (teamId : String) (ft : FilterJS)
    (entityName entityId : Option String) (tasks : List TaskData) : String :=
  if tasks.isEmpty then filterTitle ft ++ "\n\n" ++ noTasksMsg
  else
    let headerLabel := "<a href=\"" ++ escapeAttr (peopleUrl teamId) ++ "\">" ++
      escapeHtml (headerNameOf entityName entityId) ++ "</a>"
    "<b>" ++ filterTitle ft ++ "</b> — " ++ headerLabel ++ " (" ++
      natToStr tasks.length ++ ")\n\n" ++
    strConcat ((groupByProject (tasks.take 25)).map (renderGroup sysTz)) ++
    (if 25 < tasks.length then "<i>+ ще " ++ natToStr (tasks.length - 25) ++ "</i>" else "")

/-! Section: Conversational orchestrator (`Agent.handleMessage`)

The completion service is abstracted as a map from the index of the
completion call to its outcome — exactly the "every sequence of model/tool
responses" the temporal claims quantify over.  The `messages` array is not
tracked: nothing in the control flow branches on it (it only feeds the
completion service, which the environment already abstracts), and the
conversation-store writes are recorded in the trace instead.

`get_time_tracked` and `update_context` only push a tool-result message and
continue the loop; the time-tracking HTTP call (succeed or fail) never
escapes its own `try/catch`. -/

/-- How the outer `catch` classifies a completion-service error
(`insufficient_quota`, 429, 401, 404, or anything else, which is
re-raised). -/
inductive ApiErrKind where
  | quota
  | rateLimit
  | invalidKey
  | modelNotFound
  | generic
  deriving DecidableEq, Repr

/-- One requested tool call, after argument parsing.  `argsParseError`
models `JSON.parse(toolCall.function.arguments)` throwing: that happens
outside the per-tool `try`, so the outer catch sees it and re-raises.
`nonFunction` models `toolCall.type !== "function"`. -/
inductive ToolCall where
  | loadAndFilter (entityType : EntityJS) (entityId entityName : Option String)
      (filterType : FilterJS)
  | updateContext (personId personName : String)
  | getTimeTracked (personId personName period : String)
  | unknownTool (nm : String)
  | argsParseError
  | nonFunction
  deriving DecidableEq, Repr

/-- Outcome of one completion call. `noMessage` is
`completion.choices[0]?.message` being undefined (the `break`). -/
inductive ModelResp where
  | apiError (k : ApiErrKind)
  | noMessage
  | message (content : Option String) (toolCalls : List ToolCall)

/-- Environment of one `handleMessage` run: the k-th completion call's
outcome plus the ClickUp surfaces behind `load_and_filter_tasks`. -/
structure AgentEnv where
  completions : Nat → ModelResp
  clickup : ClickUpEnv

/-- Static configuration threaded into the agent. -/
structure AgentCtx where
  tz : Int
  sysTz : Int
  teamId : String
  depts : List (String × DeptConfig)
  membersCfg : List MemberConfig
  now : Int

/-- Observable trace of one `handleMessage` run: the returned text (or the
re-raised error), the `saveMessage` calls in order, one entry per
completion call recording whether `tool_choice` was `"required"`, and the
`updateState` person updates. -/
structure AgentOut where
  result : Except ApiErrKind String
  saved : List (String × String)
  calls : List Bool
  stateUpdates : List (String × String)
  deriving Repr

def quotaMsg : String :=
  "❌ <b>КРИТИЧНА ПОМИЛКА:</b> Закінчились кошти на OpenAI API!\n\nПотрібно поповнити баланс на https://platform.openai.com/account/billing"

def rateLimitMsg : String :=
  "⚠️ Забагато запитів до OpenAI. Почекайте хвилину і спробуйте знову."

def invalidKeyMsg : String :=
  "❌ Помилка авторизації OpenAI API. Перевірте OPENAI_API_KEY."

def modelNotFoundMsg : String :=
  "❌ Модель OpenAI не знайдена. Перевірте налаштування OPENAI_MODEL."

def overflowMsg : String := "Забагато кроків. Спробуйте уточнити запит."

def noToolsErrMsg : String :=
  "⚠️ Помилка: неможливо відповісти без завантаження даних. Спробуйте ще раз."

def noAnswerMsg : String := "Я не зміг знайти відповідь."

def fixedApiErrMsg : ApiErrKind → String
  | .quota => quotaMsg
  | .rateLimit => rateLimitMsg
  | .invalidKey => invalidKeyMsg
  | .modelNotFound => modelNotFoundMsg
  | .generic => ""

def taskKeywords : List String :=
  ["таск", "task", "задач", "просроч", "overdue", "завис", "stuck", "дедлайн", "deadline"]

/-- Code: `taskKeywords.some(kw => text.toLowerCase().includes(kw))`. -/
def isTaskQuery (text : String) : Bool :=
  taskKeywords.any (fun kw => strIncludes (jsToLower text) kw)

/-- Outcome of running one message's list of tool calls. -/
inductive ToolsOutcome where
  | toContinue (updates : List (String × String))
  | toReturn (answer : String) (saved : List (String × String))
      (updates : List (String × String))
  | toThrow (k : ApiErrKind) (updates : List (String × String))

/-- The `for (const toolCall of message.tool_calls)` loop.  A successful
`load_and_filter_tasks` saves both texts and returns its formatted answer
directly; its `processQuery` throw (unknown entity type) is caught per
call and the loop continues; `update_context` records a state update;
everything else only feeds a tool-result message back. -/
def runTools (ctx : AgentCtx) (env : AgentEnv) (text : String) :
    List ToolCall → List (String × String) → ToolsOutcome
  | [], ups => .toContinue ups
  | tc :: rest, ups =>
    match tc with
    | .nonFunction => runTools ctx env text rest ups
    | .argsParseError => .toThrow .generic ups
    | .unknownTool _ => runTools ctx env text rest ups
    | .getTimeTracked _ _ _ => runTools ctx env text rest ups
    | .updateContext pid pname => runTools ctx env text rest (ups ++ [(pid, pname)])
    | .loadAndFilter et eid ename ft =>
      match processQuery env.clickup ctx.depts ctx.membersCfg ctx.tz ctx.now
          ⟨et, eid, ename, ft, .show⟩ with
      | .error _ => runTools ctx env text rest ups
      | .ok tasks =>
        let formatted := formatTasksAnswer ctx.sysTz ctx.teamId ft ename eid tasks
        let ups' := if et = .person && truthyOpt eid && truthyOpt ename then
            ups ++ [(eid.getD "", ename.getD "")] else ups
        .toReturn formatted [("user", text), ("assistant", formatted)] ups'

/-- The `while (iterations < 6)` loop; `i` counts completed iterations, so
`iterations = i + 1` inside the body and `tool_choice` is `"required"`
exactly when `i = 0` and the text looks like a task query. -/
def agentLoop (ctx : AgentCtx) (env : AgentEnv) (text : String)
    (i : Nat) (calls : List Bool) (ups : List (String × String)) : AgentOut :=
  if i < 6 then
    let forceTools := decide (i = 0) && isTaskQuery text
    let calls' := calls ++ [forceTools]
    match env.completions i with
    | .apiError .quota => ⟨.ok quotaMsg, [], calls', ups⟩
    | .apiError .rateLimit => ⟨.ok rateLimitMsg, [], calls', ups⟩
    | .apiError .invalidKey => ⟨.ok invalidKeyMsg, [], calls', ups⟩
    | .apiError .modelNotFound => ⟨.ok modelNotFoundMsg, [], calls', ups⟩
    | .apiError .generic => ⟨.error .generic, [], calls', ups⟩
    | .noMessage => ⟨.ok overflowMsg, [], calls', ups⟩
    | .message content tcs =>
      if tcs.isEmpty then
        if decide (i = 0) && isTaskQuery text then
          ⟨.ok noToolsErrMsg, [("user", text), ("assistant", noToolsErrMsg)], calls', ups⟩
        else
          let responseText := jsOrStr (content.getD "") noAnswerMsg
          ⟨.ok responseText, [("user", text), ("assistant", responseText)], calls', ups⟩
      else
        match runTools ctx env text tcs ups with
        | .toContinue ups' => agentLoop ctx env text (i + 1) calls' ups'
        | .toReturn ans saved ups' => ⟨.ok ans, saved, calls', ups'⟩
        | .toThrow k ups' => ⟨.error k, [], calls', ups'⟩
  else ⟨.ok overflowMsg, [], calls, ups⟩
termination_by 6 - i

/-- Code: `Agent.handleMessage`.  `teamInfo` is the (unmodelled, regex-driven)
result of `buildTeamInfoResponse`: when it is non-null the templated
answer is saved and returned without any completion call. -/
def handleMessage (ctx : AgentCtx) (teamInfo : Option String)
    (env : AgentEnv) (text : String) : AgentOut :=
  match teamInfo with
  | some r => ⟨.ok r, [("user", text), ("assistant", r)], [], []⟩
  | none => agentLoop ctx env text 0 [] []

/-! Section: Supporting lemmas -/

/-! Concrete inputs and analysis definitions used by the claim theorems. -/

/-- Sample configured-zone offset (UTC+3, Europe/Kyiv in summer). -/
def tzW : Int := 10800000

/-- Sample "now": 2023-11-14T22:13:20Z. -/
def nowW : Int := 1700000000000

def overdueTaskW : TaskData :=
  { id := "42", name := "Звіт", status := .objVal "in progress",
    due_date := .num 1699827200000, date_created := .num 1690000000000,
    assignees := [], listName := some "Маркетинг", folderName := none,
    spaceName := none, url := some "https://app.clickup.com/t/42", shortUrl := none }

/-- A task that `filterStuck` keeps: active status, three days old, no due
date. -/
def stuckTaskW : TaskData :=
  { id := "7", name := "Регламент партнерства", status := .objVal "to do",
    due_date := .null, date_created := .num 1699740800000,
    assignees := [], listName := none, folderName := none, spaceName := none,
    url := none, shortUrl := none }

/-- A mock server for the C3 witness: page 0 has one task, page 1 errors. -/
def serverW : Nat → PageResult
  | 0 => .ok [overdueTaskW]
  | _ => .err

/-- Department directory for the C10 witness: one configured department
and one whose entry lacks `list_ids`. -/
def deptsW : List (String × DeptConfig) :=
  [("marketing", ⟨some ["901"]⟩), ("sales", ⟨none⟩)]

def clickupEnvW : ClickUpEnv :=
  { personPages := fun _ _ => .ok [], listFetch := fun _ => .ok [overdueTaskW] }

/-- The stuck task of C2 with its status as a plain string instead of a
nested status object. -/
def plainStatusTaskW : TaskData := { stuckTaskW with status := .strVal "to do" }

/-- Two overdue tasks with distinct assignees and equal totals, for the C4
witness. -/
def taskAW : TaskData :=
  { overdueTaskW with
    id := "A1"
    name := "Задача Анни"
    assignees := [Assignee.objVal (some "Анна") none (some 11)] }

def taskBW : TaskData :=
  { overdueTaskW with
    id := "B1"
    name := "Задача Богдана"
    assignees := [Assignee.objVal (some "Богдан") none (some 12)] }

def statsTasksW : List TaskData := [taskAW, taskBW]

def entryAW : StatEntry :=
  { name := "Анна", total := 1, hardOverdue := 1, stuck := 0, dueToday := 0,
    departments := ["Маркетинг"] }

def entryBW : StatEntry :=
  { name := "Богдан", total := 1, hardOverdue := 1, stuck := 0, dueToday := 0,
    departments := ["Маркетинг"] }

/-- A tool call whose processing lets the `for` loop (and hence the outer
`while` loop) continue: everything except a parse error (re-raised) and a
`load_and_filter_tasks` call with a recognized entity type (which returns
its formatted answer directly). -/
def ToolCall.continuing : ToolCall → Bool
  | .loadAndFilter et _ _ _ => et == .other
  | .argsParseError => false
  | _ => true

/-- A completion outcome that keeps the loop running: a message whose tool
calls are non-empty and all continuing. -/
def continuingResp : ModelResp → Bool
  | .message _ tcs => !tcs.isEmpty && tcs.all ToolCall.continuing
  | _ => false

/-- A completion service that always asks for `update_context` and never
produces an answer. -/
def envContinueW : AgentEnv :=
  { completions := fun _ => .message none [ToolCall.updateContext "100636815" "Ілля"],
    clickup := clickupEnvW }

def agentCtxW : AgentCtx :=
  { tz := tzW, sysTz := tzW, teamId := "9013000000", depts := deptsW,
    membersCfg := [], now := nowW }

/-- A completion service that answers in plain text without tool calls. -/
def envNoToolsW : AgentEnv :=
  { completions := fun _ => .message (some "Все добре!") [],
    clickup := clickupEnvW }

/-- A completion service whose first call raises `insufficient_quota`. -/
def envQuotaW : AgentEnv :=
  { completions := fun _ => .apiError .quota, clickup := clickupEnvW }

/-- Raw `<` characters a task block is allowed to contain: its three tag
pairs plus, when a URL is present, the anchor pair. -/
def taskBlockLt (t : TaskData) : Nat :=
  6 + (if (taskUrlRaw t).isEmpty then 0 else 2)

def groupLt (g : String × List TaskData) : Nat := 2 + (g.2.map taskBlockLt).sum

/-- Number of `<` characters the formatted `load_and_filter_tasks` answer
owes exclusively to its fixed markup, computed from the structure of the
input alone (never from the interpolated text). -/
def expectedAnswerLt (tasks : List TaskData) : Nat :=
  if tasks.isEmpty then 0
  else 4 + ((groupByProject (tasks.take 25)).map groupLt).sum +
    (if 25 < tasks.length then 2 else 0)

/-- A sample roster member. -/
def memberW : MemberConfig :=
  { id := 11, name := "Ілля Сенчук", username := some "ilya", email := none,
    aliases := ["Ілля"], role := some "розробник", exclude_from_counts := false }

/-- An overdue task whose assignee name carries HTML markup. -/
def xssTaskW : TaskData :=
  { overdueTaskW with
    id := "X1"
    name := "Звіт X"
    assignees := [Assignee.objVal (some "<script>alert(1)</script>") none (some 13)] }

def xssEntryW : StatEntry :=
  { name := "<script>alert(1)</script>", total := 1, hardOverdue := 1, stuck := 0,
    dueToday := 0, departments := ["Маркетинг"] }

/-- Comparing local-midnight instants compares local calendar days. -/
theorem startOfDayMs_lt_iff (tz a b : Int) :
    startOfDayMs tz a < startOfDayMs tz b ↔ localDay tz a < localDay tz b := by
  unfold startOfDayMs msPerDay
  constructor <;> intro h <;> omega

/-! Section: Claims -/

/-- Claim C1. For a task whose due date is a valid epoch-millis value `ms`,
the overdue filter keeps it iff the due instant's local calendar day is
strictly before now's, the due-today filter keeps it iff the days are
equal, the two filters never keep it simultaneously, and a task with a
null due date is kept by neither. -/
theorem overdue_and_dueToday_follow_calendar_days (tz now : Int)
    (tasks : List TaskData) (t : TaskData) (hmem : t ∈ tasks) :
    (∀ ms : Int, t.due_date = .num ms →
      ((t ∈ filterOverdue tz now tasks ↔ localDay tz ms < localDay tz now) ∧
       (t ∈ filterDueToday tz now tasks ↔ localDay tz ms = localDay tz now) ∧
       ¬(t ∈ filterOverdue tz now tasks ∧ t ∈ filterDueToday tz now tasks))) ∧
    (t.due_date = .null →
      t ∉ filterOverdue tz now tasks ∧ t ∉ filterDueToday tz now tasks) := by
  constructor
  · intro ms hms
    have h1 : t ∈ filterOverdue tz now tasks ↔ localDay tz ms < localDay tz now := by
      simp [filterOverdue, List.mem_filter, hmem, overduePred, hms, startOfDayMs_lt_iff]
    have h2 : t ∈ filterDueToday tz now tasks ↔ localDay tz ms = localDay tz now := by
      simp [filterDueToday, List.mem_filter, hmem, dueTodayPred, hms]
    refine ⟨h1, h2, ?_⟩
    rintro ⟨ha, hb⟩
    have := h1.mp ha
    rw [h2.mp hb] at this
    exact lt_irrefl _ this
  · intro hnull
    simp [filterOverdue, filterDueToday, List.mem_filter, overduePred, dueTodayPred, hnull]

/-- Witness for C1 at a concrete task due two days before `nowW`. -/
theorem overdue_and_dueToday_follow_calendar_days_witness :
    (overdueTaskW ∈ filterOverdue tzW nowW [overdueTaskW] ↔
      localDay tzW 1699827200000 < localDay tzW nowW) ∧
    ¬(overdueTaskW ∈ filterOverdue tzW nowW [overdueTaskW] ∧
      overdueTaskW ∈ filterDueToday tzW nowW [overdueTaskW]) := by
  have h := overdue_and_dueToday_follow_calendar_days tzW nowW [overdueTaskW]
    overdueTaskW (by simp)
  have h' := h.1 1699827200000 rfl
  exact ⟨h'.1, h'.2.2⟩

/-- Counterexample to claim C2. `filterStuck` tests JavaScript truthiness of
`due_date`, and the empty string is falsy but non-null: a stuck task given
the non-null due date `""` is still kept, so "stuck ⇒ due_date is null"
and "any non-null replacement removes it" both fail. -/
theorem stuck_filter_keeps_empty_string_due_date :
    stuckTaskW ∈ filterStuck tzW nowW [stuckTaskW] ∧
    ({ stuckTaskW with due_date := .empty } : TaskData) ∈
      filterStuck tzW nowW [{ stuckTaskW with due_date := .empty }] ∧
    ({ stuckTaskW with due_date := .empty } : TaskData).due_date ≠ JsDateVal.null := by
  refine ⟨by decide, by decide, by decide⟩

/-- Amended claim C2. A task kept by the stuck filter has a *falsy* due date
(null or the empty string), and replacing the due date with any truthy
(non-empty) value removes the task from the stuck set. -/
theorem stuck_tasks_have_falsy_due_date (tz now : Int)
    (tasks : List TaskData) (t : TaskData) :
    (t ∈ filterStuck tz now tasks → t.due_date = .null ∨ t.due_date = .empty) ∧
    (∀ d : JsDateVal, d.truthy = true → ∀ tasks' : List TaskData,
      ({ t with due_date := d } : TaskData) ∉ filterStuck tz now tasks') := by
  constructor
  · intro h
    have hp : stuckPred tz now t = true := (List.mem_filter.mp h).2
    cases hd : t.due_date with
    | null => exact Or.inl rfl
    | empty => exact Or.inr rfl
    | num ms => rw [stuckPred, hd] at hp; simp [JsDateVal.truthy] at hp
    | nonNum => rw [stuckPred, hd] at hp; simp [JsDateVal.truthy] at hp
  · intro d hd tasks' hmem
    have hp : stuckPred tz now ({ t with due_date := d } : TaskData) = true :=
      (List.mem_filter.mp hmem).2
    rw [stuckPred] at hp
    simp [hd] at hp

/-- Witness for C2's amended claim at the concrete stuck task. -/
theorem stuck_tasks_have_falsy_due_date_witness :
    (stuckTaskW.due_date = JsDateVal.null ∨ stuckTaskW.due_date = JsDateVal.empty) ∧
    ({ stuckTaskW with due_date := JsDateVal.num 1700000000000 } : TaskData) ∉
      filterStuck tzW nowW [{ stuckTaskW with due_date := JsDateVal.num 1700000000000 }] := by
  have h := stuck_tasks_have_falsy_due_date tzW nowW [stuckTaskW] stuckTaskW
  exact ⟨h.1 (by decide), h.2 (JsDateVal.num 1700000000000) (by decide) _⟩

/-- The fetch counter of the pagination loop increases by at most the
number of remaining pages below the cap. -/
theorem loadPersonTasksGo_fetches_le (server : Nat → PageResult) :
    ∀ n page acc f, 10 - page ≤ n →
      (loadPersonTasksGo server page acc f).2 ≤ f + (10 - page) := by
  intro n
  induction n with
  | zero =>
    intro page acc f h
    have hp : ¬ page < 10 := by omega
    rw [loadPersonTasksGo]
    simp [hp]
  | succ n ih =>
    intro page acc f h
    rw [loadPersonTasksGo]
    by_cases hp : page < 10
    · simp only [hp, if_true]
      cases hs : server page with
      | err => simp; omega
      | ok ts =>
        by_cases he : ts.isEmpty
        · simp [he]; omega
        · simp only [eq_false he, Bool.false_eq_true, if_false]
          have := ih (page + 1) (acc ++ ts) (f + 1) (by omega)
          omega
    · simp [hp]

/-- If pages `0 ≤ i < k` are non-empty successes and page `k` errors, the
loop returns exactly the concatenation of the first `k` pages. -/
theorem loadPersonTasksGo_partial (server : Nat → PageResult)
    (ps : Nat → List TaskData) (k : Nat) (hk : k < 10) (herr : server k = .err) :
    ∀ n page acc f, page ≤ k → k - page ≤ n →
      (∀ i, page ≤ i → i < k → server i = .ok (ps i) ∧ ps i ≠ []) →
      (loadPersonTasksGo server page acc f).1 =
        acc ++ ((List.range' page (k - page)).map ps).flatten := by
  intro n
  induction n with
  | zero =>
    intro page acc f hpk hn hok
    have hpage : page = k := by omega
    subst hpage
    rw [loadPersonTasksGo]
    simp [hk, herr]
  | succ n ih =>
    intro page acc f hpk hn hok
    by_cases hpage : page = k
    · subst hpage
      rw [loadPersonTasksGo]
      simp [hk, herr]
    · have hlt : page < k := by omega
      obtain ⟨hsv, hne⟩ := hok page (Nat.le_refl _) hlt
      have h10 : page < 10 := by omega
      have hemp : (ps page).isEmpty = false := by
        cases hps : ps page with
        | nil => exact absurd hps hne
        | cons a l => rfl
      rw [loadPersonTasksGo]
      simp only [h10, if_true, hsv, hemp, Bool.false_eq_true, if_false]
      rw [ih (page + 1) (acc ++ ps page) (f + 1) (by omega) (by omega)
        (fun i h1 h2 => hok i (by omega) h2)]
      have hkp : k - page = (k - (page + 1)) + 1 := by omega
      rw [hkp, List.range'_succ]
      simp [List.append_assoc]

/-- Claim C3. The per-person pagination loop issues at most 10 page fetches;
an empty first page stops the loop after that single fetch with the empty
result; and when pages `0..k-1` return tasks and page `k` raises, the loop
returns the tasks of the first `k` pages as a normal (partial) result. -/
theorem pagination_bounded_stops_and_tolerates_errors (server : Nat → PageResult) :
    (loadPersonTasks server).2 ≤ 10 ∧
    (server 0 = .ok [] → loadPersonTasks server = ([], 1)) ∧
    (∀ k : Nat, ∀ ps : Nat → List TaskData, k < 10 →
      (∀ i, i < k → server i = .ok (ps i) ∧ ps i ≠ []) → server k = .err →
      (loadPersonTasks server).1 = ((List.range k).map ps).flatten) := by
  refine ⟨?_, ?_, ?_⟩
  · have := loadPersonTasksGo_fetches_le server 10 0 [] 0 (by omega)
    simpa [loadPersonTasks] using this
  · intro h
    rw [loadPersonTasks, loadPersonTasksGo]
    simp [h]
  · intro k ps hk hok herr
    have := loadPersonTasksGo_partial server ps k hk herr k 0 [] 0 (by omega)
      (by omega) (fun i _ h2 => hok i h2)
    simpa [loadPersonTasks, List.range_eq_range'] using this

/-- Witness for C3: the bound, the empty-first-page shape (on the constant
empty server), and the partial result after an error on page 1. -/
theorem pagination_bounded_stops_and_tolerates_errors_witness :
    (loadPersonTasks serverW).2 ≤ 10 ∧
    loadPersonTasks (fun _ => .ok []) = ([], 1) ∧
    (loadPersonTasks serverW).1 = [overdueTaskW] := by
  refine ⟨(pagination_bounded_stops_and_tolerates_errors serverW).1, ?_, ?_⟩
  · exact (pagination_bounded_stops_and_tolerates_errors (fun _ => .ok [])).2.1 rfl
  · have := (pagination_bounded_stops_and_tolerates_errors serverW).2.2 1
      (fun _ => [overdueTaskW]) (by omega)
      (by intro i h1; interval_cases i; exact ⟨rfl, by simp⟩) rfl
    simpa using this

/-- Claim C10. Every filter maps the empty task list to the empty list, and a
department classification whose key is not configured, or whose entry has
no `list_ids`, makes `processQuery` return `.ok []` — indistinguishable
from a department with no tasks, and no error is raised. -/
theorem unknown_department_yields_empty (env : ClickUpEnv)
    (depts : List (String × DeptConfig)) (membersCfg : List MemberConfig)
    (tz now : Int) (eid ename : Option String) (ft : FilterJS) (op : OperationJS) :
    (∀ ft' : FilterJS, applyFilters tz now [] ft' = []) ∧
    ((depts.lookup (jsParamStr eid) = none ∨
      (∃ dc : DeptConfig, depts.lookup (jsParamStr eid) = some dc ∧ dc.list_ids = none)) →
      processQuery env depts membersCfg tz now ⟨.department, eid, ename, ft, op⟩ = .ok []) := by
  have hfilters : ∀ ft' : FilterJS, applyFilters tz now [] ft' = [] := by
    intro ft'
    cases ft' <;> rfl
  refine ⟨hfilters, ?_⟩
  intro h
  have hload : loadDepartmentTasks env.listFetch depts (jsParamStr eid) = [] := by
    rcases h with h | ⟨dc, h1, h2⟩
    · simp [loadDepartmentTasks, h]
    · simp [loadDepartmentTasks, h1, h2]
  show Except.ok (applyFilters tz now (loadDepartmentTasks env.listFetch depts (jsParamStr eid)) ft) = .ok []
  rw [hload, hfilters]

/-- Witness for C10: the unknown key `"design"` and the listless `"sales"`
both produce `.ok []`. -/
theorem unknown_department_yields_empty_witness :
    processQuery clickupEnvW deptsW [] tzW nowW
      ⟨.department, some "design", none, .overdue, .show⟩ = .ok [] ∧
    processQuery clickupEnvW deptsW [] tzW nowW
      ⟨.department, some "sales", none, .noneF, .show⟩ = .ok [] := by
  constructor
  · exact (unknown_department_yields_empty clickupEnvW deptsW [] tzW nowW
      (some "design") none .overdue .show).2 (Or.inl (by decide))
  · exact (unknown_department_yields_empty clickupEnvW deptsW [] tzW nowW
      (some "sales") none .noneF .show).2 (Or.inr ⟨⟨none⟩, by decide, rfl⟩)

/-- Counterexample to claim C5. The statistics engine reads status as
`task.status?.status || ''`; on a plain-string status this yields `''`, so
a task the pipeline's stuck filter keeps is not counted as stuck by the
statistics engine. -/
theorem stats_misses_plain_string_status_stuck :
    stuckPred tzW nowW plainStatusTaskW = true ∧
    statsIsStuck tzW nowW plainStatusTaskW = false := by
  refine ⟨by decide, by decide⟩

/-- Amended claim C5. The statistics engine's hardOverdue and dueToday
classifications agree with the pipeline's overdue and due-today predicates
on every task; its stuck classification agrees whenever the status field
is a nested status object.  (On a plain-string status the engine reads
`''` instead of the status text, so stuck can disagree.) -/
theorem stats_classifiers_match_pipeline (tz now : Int) (t : TaskData) :
    (statsIsHardOverdue tz now t = overduePred tz now t) ∧
    (statsIsDueToday tz now t = dueTodayPred tz now t) ∧
    (∀ s : String, t.status = .objVal s → statsIsStuck tz now t = stuckPred tz now t) := by
  refine ⟨rfl, rfl, ?_⟩
  intro s hs
  rw [stuckPred, statsIsStuck]
  simp only [statsStatusName, hs, getStatusString, statusStatusOrEmpty]
  cases ht : t.due_date.truthy
  · simp only [ht, Bool.not_false, Bool.true_and, Bool.false_eq_true, if_false]
    by_cases ha : (activeStatuses.any fun s' => strIncludes (jsToLower s) s') = true
    · simp only [ha, Bool.not_true, Bool.true_and, Bool.false_eq_true, if_false]
      cases t.date_created <;> rfl
    · simp [ha]
  · simp [ht]

/-- Witness for C5's amended claim at the concrete object-status task. -/
theorem stats_classifiers_match_pipeline_witness :
    statsIsHardOverdue tzW nowW stuckTaskW = overduePred tzW nowW stuckTaskW ∧
    statsIsStuck tzW nowW stuckTaskW = stuckPred tzW nowW stuckTaskW := by
  have h := stats_classifiers_match_pipeline tzW nowW stuckTaskW
  exact ⟨h.1, h.2.2 "to do" rfl⟩

/-! Supporting lemmas for the leaderboard claim. -/

theorem entryLE_trans : ∀ a b c : StatEntry, entryLE a b → entryLE b c → entryLE a c := by
  intro a b c hab hbc
  simp only [entryLE, decide_eq_true_eq] at *
  omega

theorem entryLE_total : ∀ a b : StatEntry, entryLE a b || entryLE b a := by
  intro a b
  simp only [entryLE, Bool.or_eq_true, decide_eq_true_eq]
  omega

theorem listStarts_append (p r : List Char) : listStarts p (p ++ r) = true := by
  induction p with
  | nil => rfl
  | cons a as ih => simp [listStarts, ih]

theorem strStarts_append (p r : String) : strStarts (p ++ r) p = true := by
  show listStarts p.data (p ++ r).data = true
  rw [String.data_append]
  exact listStarts_append _ _

theorem data_head?_append (s t : String) (h : s.data ≠ []) :
    (s ++ t).data.head? = s.data.head? := by
  rw [String.data_append]
  cases hs : s.data with
  | nil => exact absurd hs h
  | cons c cs => rfl

/-- The header line of the leaderboard starts with `📊`. -/
theorem statsHeader_head (n : Nat) : (statsHeader n).data.head? = some '📊' := by
  rw [statsHeader, data_head?_append, data_head?_append] <;>
    first
      | decide
      | rw [String.data_append]
        simp

/-- Each rendered leaderboard line starts with its medal glyph. -/
theorem statLine_starts_with_medal (i : Nat) (s : StatEntry) :
    strStarts (statLine i s) (medalFor i) = true := by
  rw [statLine]
  rw [show medalFor i ++ " <b>" ++ s.name ++ "</b> — " ++ natToStr s.total ++ " (" ++
      strJoin " + " (statParts s) ++ ")" =
    medalFor i ++ (" <b>" ++ (s.name ++ ("</b> — " ++ (natToStr s.total ++ (" (" ++
      (strJoin " + " (statParts s) ++ ")")))))) from by
    simp [String.append_assoc]]
  exact strStarts_append _ _

/-- Claim C4. The rendered leaderboard of `generateOverdueStats` is ranked by
non-increasing `total`, keeps only assignees with positive totals, is
stable on ties (equal totals keep their first-seen relative order), renders
at most five entries with medal glyphs on ranks 1–3, adds the "N more"
note exactly when more than five assignees qualify, and collapses to the
fixed "no problems" sentinel exactly when nobody qualifies. -/
theorem leaderboard_ranking_properties (tz now : Int) (tasks : List TaskData) :
    ((sortedStats tz now tasks).Pairwise (fun a b => b.total ≤ a.total)) ∧
    (∀ e ∈ sortedStats tz now tasks, 0 < e.total) ∧
    (∀ a b : StatEntry, a.total = b.total →
      List.Sublist [a, b] ((statEntries tz now tasks).filter (fun s => 0 < s.total)) →
      List.Sublist [a, b] (sortedStats tz now tasks)) ∧
    ((statsEntryLines (sortedStats tz now tasks)).length =
      min 5 (sortedStats tz now tasks).length) ∧
    (((statsEntryLines (sortedStats tz now tasks)).head?).all
      (fun l => strStarts l "🥇") = true) ∧
    ((((statsEntryLines (sortedStats tz now tasks)).drop 1).head?).all
      (fun l => strStarts l "🥈") = true) ∧
    ((((statsEntryLines (sortedStats tz now tasks)).drop 2).head?).all
      (fun l => strStarts l "🥉") = true) ∧
    ((statsMoreLines (sortedStats tz now tasks)).length =
      if 5 < (sortedStats tz now tasks).length then 1 else 0) ∧
    (generateOverdueStats tz now tasks = noProblemsMsg ↔
      sortedStats tz now tasks = []) := by
  refine ⟨?_, ?_, ?_, ?_, ?_, ?_, ?_, ?_, ?_⟩
  · have h := List.sorted_mergeSort entryLE_trans entryLE_total
      ((statEntries tz now tasks).filter (fun s => 0 < s.total))
    exact h.imp (fun hab => by simpa [entryLE] using hab)
  · intro e he
    have h1 : e ∈ (statEntries tz now tasks).filter (fun s => 0 < s.total) :=
      List.mem_mergeSort.mp he
    simpa using (List.mem_filter.mp h1).2
  · intro a b hab hsub
    exact List.pair_sublist_mergeSort entryLE_trans entryLE_total
      (by simp [entryLE, hab]) hsub
  · simp [statsEntryLines]
  · rcases sortedStats tz now tasks with _ | ⟨a, l⟩
    · rfl
    · simpa [statsEntryLines] using statLine_starts_with_medal 0 a
  · rcases sortedStats tz now tasks with _ | ⟨a, _ | ⟨b, l⟩⟩
    · rfl
    · rfl
    · simpa [statsEntryLines] using statLine_starts_with_medal 1 b
  · rcases sortedStats tz now tasks with _ | ⟨a, _ | ⟨b, _ | ⟨c, l⟩⟩⟩
    · rfl
    · rfl
    · rfl
    · simpa [statsEntryLines] using statLine_starts_with_medal 2 c
  · rw [statsMoreLines]
    split <;> rfl
  · constructor
    · intro h
      cases hs : sortedStats tz now tasks with
      | nil => rfl
      | cons x xs =>
        exfalso
        rw [generateOverdueStats] at h
        simp only [hs, List.isEmpty_cons, if_false, Bool.false_eq_true] at h
        have hlines : statsEntryLines (x :: xs) = statLine 0 x ::
            ((xs.take 4).enumFrom 1).map (fun p => statLine p.1 p.2) := by
          simp [statsEntryLines, List.enum_cons]
        rw [hlines] at h
        simp only [List.cons_append] at h
        have hhead : (strJoin "\n" (statsHeader (x :: xs).length :: statLine 0 x ::
            (((xs.take 4).enumFrom 1).map (fun p => statLine p.1 p.2) ++
              statsMoreLines (x :: xs)))).data.head? = some '📊' := by
          rw [strJoin]
          rw [data_head?_append, data_head?_append]
          · exact statsHeader_head _
          · intro hc
            have := statsHeader_head (x :: xs).length
            rw [hc] at this
            cases this
          · rw [String.data_append]
            intro hc
            have := statsHeader_head (x :: xs).length
            cases hd : (statsHeader (x :: xs).length).data with
            | nil => rw [hd] at this; cases this
            | cons y ys => rw [hd] at hc; cases hc
        rw [h] at hhead
        have : (noProblemsMsg).data.head? = some '✅' := by decide
        rw [this] at hhead
        cases hhead
    · intro h
      rw [generateOverdueStats]
      simp [h]

/-- Witness for C4: with two tied assignees, both appear with positive
totals and keep their first-seen order. -/
theorem leaderboard_ranking_properties_witness :
    0 < entryAW.total ∧
    List.Sublist [entryAW, entryBW] (sortedStats tzW nowW statsTasksW) := by
  have h := leaderboard_ranking_properties tzW nowW statsTasksW
  have hfilter : (statEntries tzW nowW statsTasksW).filter (fun s => 0 < s.total) =
      [entryAW, entryBW] := by decide
  refine ⟨?_, h.2.2.1 entryAW entryBW rfl (by rw [hfilter])⟩
  have hsorted : sortedStats tzW nowW statsTasksW = [entryAW, entryBW] := by
    rw [sortedStats, hfilter]
    exact List.mergeSort_of_sorted (by decide)
  exact h.2.1 entryAW (by rw [hsorted]; simp)

/-! Analysis of the orchestrator loop. -/

theorem runTools_continuing (ctx : AgentCtx) (env : AgentEnv) (text : String) :
    ∀ tcs : List ToolCall, ∀ ups, tcs.all ToolCall.continuing = true →
      ∃ ups', runTools ctx env text tcs ups = .toContinue ups' := by
  intro tcs
  induction tcs with
  | nil => exact fun ups _ => ⟨ups, rfl⟩
  | cons tc rest ih =>
    intro ups hall
    rw [List.all_cons, Bool.and_eq_true] at hall
    cases tc with
    | nonFunction => exact ih ups hall.2
    | argsParseError => cases hall.1
    | unknownTool nm => exact ih ups hall.2
    | getTimeTracked a b c => exact ih ups hall.2
    | updateContext a b => exact ih (ups ++ [(a, b)]) hall.2
    | loadAndFilter et eid ename ft =>
      have het : et = .other := by
        have := hall.1
        rw [ToolCall.continuing] at this
        simpa using this
      subst het
      exact ih ups hall.2

theorem runTools_toReturn_saved (ctx : AgentCtx) (env : AgentEnv) (text : String) :
    ∀ tcs : List ToolCall, ∀ ups ans sv ups',
      runTools ctx env text tcs ups = .toReturn ans sv ups' →
      sv = [("user", text), ("assistant", ans)] := by
  intro tcs
  induction tcs with
  | nil => intro ups ans sv ups' h; cases h
  | cons tc rest ih =>
    intro ups ans sv ups' h
    cases tc with
    | nonFunction => exact ih _ _ _ _ h
    | argsParseError => cases h
    | unknownTool nm => exact ih _ _ _ _ h
    | getTimeTracked a b c => exact ih _ _ _ _ h
    | updateContext a b => exact ih _ _ _ _ h
    | loadAndFilter et eid ename ft =>
      rw [runTools] at h
      cases hq : processQuery env.clickup ctx.depts ctx.membersCfg ctx.tz ctx.now
          ⟨et, eid, ename, ft, .show⟩ with
      | error e => rw [hq] at h; exact ih _ _ _ _ h
      | ok tasks =>
        rw [hq] at h
        cases h
        rfl

/-- The loop appends one `tool_choice` record per iteration and never runs
more than `6 - i` further iterations. -/
theorem agentLoop_calls_le (ctx : AgentCtx) (env : AgentEnv) (text : String) :
    ∀ n i calls ups, 6 - i ≤ n →
      (agentLoop ctx env text i calls ups).calls.length ≤ calls.length + (6 - i) := by
  intro n
  induction n with
  | zero =>
    intro i calls ups h
    have hi : ¬ i < 6 := by omega
    rw [agentLoop]
    simp [hi]
  | succ n ih =>
    intro i calls ups h
    rw [agentLoop]
    by_cases hi : i < 6
    · simp only [hi, if_true]
      cases hr : env.completions i with
      | apiError k => cases k <;> simp <;> omega
      | noMessage => simp; omega
      | message c tcs =>
        by_cases ht : tcs.isEmpty
        · simp only [ht, if_true]
          by_cases hf : (decide (i = 0) && isTaskQuery text) = true
          · simp [hf]; omega
          · simp [hf]; omega
        · simp only [ht, Bool.false_eq_true, if_false]
          cases hrt : runTools ctx env text tcs ups with
          | toContinue ups' =>
            have := ih (i + 1) (calls ++ [decide (i = 0) && isTaskQuery text]) ups' (by omega)
            simp at this ⊢
            omega
          | toReturn ans sv ups' => simp; omega
          | toThrow k ups' => simp; omega
    · simp [hi]

theorem agentLoop_calls_extend (ctx : AgentCtx) (env : AgentEnv) (text : String) :
    ∀ n i calls ups, 6 - i ≤ n →
      ∃ rest, (agentLoop ctx env text i calls ups).calls = calls ++ rest := by
  intro n
  induction n with
  | zero =>
    intro i calls ups h
    have hi : ¬ i < 6 := by omega
    rw [agentLoop]
    exact ⟨[], by simp [hi]⟩
  | succ n ih =>
    intro i calls ups h
    rw [agentLoop]
    by_cases hi : i < 6
    · simp only [hi, if_true]
      cases hr : env.completions i with
      | apiError k =>
        cases k <;> exact ⟨[decide (i = 0) && isTaskQuery text], rfl⟩
      | noMessage => exact ⟨[decide (i = 0) && isTaskQuery text], rfl⟩
      | message c tcs =>
        by_cases ht : tcs.isEmpty
        · refine ⟨[decide (i = 0) && isTaskQuery text], ?_⟩
          simp only [ht, if_true]
          by_cases hf : (decide (i = 0) && isTaskQuery text) = true <;> simp [hf]
        · simp only [ht, Bool.false_eq_true, if_false]
          cases hrt : runTools ctx env text tcs ups with
          | toContinue ups' =>
            obtain ⟨rest, hrest⟩ := ih (i + 1)
              (calls ++ [decide (i = 0) && isTaskQuery text]) ups' (by omega)
            exact ⟨[decide (i = 0) && isTaskQuery text] ++ rest, by
              rw [hrest, List.append_assoc]⟩
          | toReturn ans sv ups' => exact ⟨[decide (i = 0) && isTaskQuery text], rfl⟩
          | toThrow k ups' => exact ⟨[decide (i = 0) && isTaskQuery text], rfl⟩
    · exact ⟨[], by simp [hi]⟩

/-- If every remaining completion keeps the loop running, the loop exhausts
its iteration bound and returns the fixed overflow message, having made
exactly one completion call per remaining iteration. -/
theorem agentLoop_overflow (ctx : AgentCtx) (env : AgentEnv) (text : String)
    (h : ∀ k, k < 6 → continuingResp (env.completions k) = true) :
    ∀ n i calls ups, 6 - i ≤ n →
      (agentLoop ctx env text i calls ups).result = .ok overflowMsg ∧
      (agentLoop ctx env text i calls ups).calls.length = calls.length + (6 - i) := by
  intro n
  induction n with
  | zero =>
    intro i calls ups hn
    have hi : ¬ i < 6 := by omega
    rw [agentLoop]
    simp [hi]
    omega
  | succ n ih =>
    intro i calls ups hn
    by_cases hi : i < 6
    · have hc := h i hi
      rw [agentLoop]
      simp only [hi, if_true]
      cases hr : env.completions i with
      | apiError k => rw [hr] at hc; cases hc
      | noMessage => rw [hr] at hc; cases hc
      | message c tcs =>
        rw [hr] at hc
        rw [continuingResp, Bool.and_eq_true] at hc
        have ht : tcs.isEmpty = false := by
          cases hemp : tcs.isEmpty
          · rfl
          · rw [hemp] at hc; simp at hc
        obtain ⟨ups', hups'⟩ := runTools_continuing ctx env text tcs ups hc.2
        simp only [ht, Bool.false_eq_true, if_false, hups']
        have := ih (i + 1) (calls ++ [decide (i = 0) && isTaskQuery text]) ups' (by omega)
        refine ⟨this.1, ?_⟩
        rw [this.2]
        simp
        omega
    · rw [agentLoop]
      simp [hi]
      omega

/-- Claim C6. `handleMessage` performs at most six completion calls; when all
six iterations end with tool results still pending, the loop check returns
the fixed overflow message with exactly six calls made — no seventh call
is issued. -/
theorem model_loop_never_exceeds_six_calls (ctx : AgentCtx)
    (teamInfo : Option String) (env : AgentEnv) (text : String) :
    (handleMessage ctx teamInfo env text).calls.length ≤ 6 ∧
    (teamInfo = none → (∀ k, k < 6 → continuingResp (env.completions k) = true) →
      (handleMessage ctx teamInfo env text).result = .ok overflowMsg ∧
      (handleMessage ctx teamInfo env text).calls.length = 6) := by
  constructor
  · cases teamInfo with
    | some r => simp [handleMessage]
    | none =>
      have := agentLoop_calls_le ctx env text 6 0 [] [] (by omega)
      simpa [handleMessage] using this
  · intro hti h
    subst hti
    have := agentLoop_overflow ctx env text h 6 0 [] [] (by omega)
    simpa [handleMessage] using this

/-- Witness for C6: under the always-tool-calling service the loop makes
exactly six calls and returns the overflow message. -/
theorem model_loop_never_exceeds_six_calls_witness :
    (handleMessage agentCtxW none envContinueW "скільки задач у Іллі").calls.length ≤ 6 ∧
    (handleMessage agentCtxW none envContinueW "скільки задач у Іллі").result =
      .ok overflowMsg := by
  have h := model_loop_never_exceeds_six_calls agentCtxW none envContinueW
    "скільки задач у Іллі"
  exact ⟨h.1, (h.2 rfl (by decide)).1⟩

/-- Claim C7. When the text contains a task keyword, the first completion
call forces tool use (`tool_choice = "required"`), and if the model
nevertheless answers without tool calls on turn 1, the fixed
"cannot answer without data" message is returned (and saved) instead of
the model's content. -/
theorem head?_append_left {α : Type} (l₁ l₂ : List α) (h : l₁ ≠ []) :
    (l₁ ++ l₂).head? = l₁.head? := by
  cases l₁ with
  | nil => exact absurd rfl h
  | cons a l => rfl

/-- Whatever happens after it, the record of the iteration-`i` completion
call (with its `tool_choice` flag) stays at its position in the trace. -/
theorem agentLoop_calls_head (ctx : AgentCtx) (env : AgentEnv) (text : String)
    (i : Nat) (calls : List Bool) (ups : List (String × String)) (hi : i < 6) :
    (agentLoop ctx env text i calls ups).calls.head? =
      (calls ++ [decide (i = 0) && isTaskQuery text]).head? := by
  rw [agentLoop]
  simp only [hi, if_true]
  cases hr : env.completions i with
  | apiError k => cases k <;> rfl
  | noMessage => rfl
  | message c tcs =>
    by_cases ht : tcs.isEmpty
    · simp only [ht, if_true]
      by_cases hf : (decide (i = 0) && isTaskQuery text) = true <;> simp [hf]
    · simp only [ht, Bool.false_eq_true, if_false]
      cases hrt : runTools ctx env text tcs ups with
      | toContinue ups' =>
        obtain ⟨rest, hrest⟩ := agentLoop_calls_extend ctx env text 6 (i + 1)
          (calls ++ [decide (i = 0) && isTaskQuery text]) ups' (by omega)
        rw [hrest]
        exact head?_append_left _ _ (by simp)
      | toReturn ans sv ups' => rfl
      | toThrow k ups' => rfl

/-- Claim C7. When the text contains a task keyword, the first completion
call forces tool use (`tool_choice = "required"`), and if the model
nevertheless answers without tool calls on turn 1, the fixed
"cannot answer without data" message is returned (and saved) instead of
the model's content. -/
theorem first_turn_forces_tools_on_task_queries (ctx : AgentCtx)
    (env : AgentEnv) (text : String) (htask : isTaskQuery text = true) :
    ((handleMessage ctx none env text).calls.head? = some true) ∧
    (∀ c : Option String, env.completions 0 = .message c [] →
      (handleMessage ctx none env text).result = .ok noToolsErrMsg ∧
      (handleMessage ctx none env text).saved =
        [("user", text), ("assistant", noToolsErrMsg)]) := by
  constructor
  · show (agentLoop ctx env text 0 [] []).calls.head? = some true
    rw [agentLoop_calls_head ctx env text 0 [] [] (by omega)]
    simp [htask]
  · intro c hr
    show (agentLoop ctx env text 0 [] []).result = .ok noToolsErrMsg ∧
      (agentLoop ctx env text 0 [] []).saved = [("user", text), ("assistant", noToolsErrMsg)]
    rw [agentLoop]
    simp [hr, htask]

/-- Witness for C7 on a task-keyword text whose first completion carries no
tool calls. -/
theorem first_turn_forces_tools_on_task_queries_witness :
    (handleMessage agentCtxW none envNoToolsW "які задачі прострочені?").calls.head? =
      some true ∧
    (handleMessage agentCtxW none envNoToolsW "які задачі прострочені?").result =
      .ok noToolsErrMsg := by
  have h := first_turn_forces_tools_on_task_queries agentCtxW envNoToolsW
    "які задачі прострочені?" (by decide)
  exact ⟨h.1, (h.2 (some "Все добре!") rfl).1⟩

/-- Which return paths of the loop append to the conversation store. -/
theorem agentLoop_saved (ctx : AgentCtx) (env : AgentEnv) (text : String) :
    ∀ n i calls ups, 6 - i ≤ n →
      (∀ s, (agentLoop ctx env text i calls ups).result = .ok s →
        (agentLoop ctx env text i calls ups).saved = [("user", text), ("assistant", s)] ∨
        ((agentLoop ctx env text i calls ups).saved = [] ∧
          (s = quotaMsg ∨ s = rateLimitMsg ∨ s = invalidKeyMsg ∨ s = modelNotFoundMsg ∨
            s = overflowMsg))) ∧
      (∀ e, (agentLoop ctx env text i calls ups).result = .error e →
        (agentLoop ctx env text i calls ups).saved = []) := by
  intro n
  induction n with
  | zero =>
    intro i calls ups hn
    have hi : ¬ i < 6 := by omega
    rw [agentLoop]
    constructor
    · intro s hs
      rw [if_neg hi] at hs ⊢
      right
      cases hs
      exact ⟨rfl, Or.inr (Or.inr (Or.inr (Or.inr rfl)))⟩
    · intro e he
      rw [if_neg hi] at he
      cases he
  | succ n ih =>
    intro i calls ups hn
    by_cases hi : i < 6
    · rw [agentLoop]
      simp only [hi, if_true]
      cases hr : env.completions i with
      | apiError k =>
        cases k <;> constructor <;> intro x hx <;> cases hx
        · exact Or.inr ⟨rfl, Or.inl rfl⟩
        · exact Or.inr ⟨rfl, Or.inr (Or.inl rfl)⟩
        · exact Or.inr ⟨rfl, Or.inr (Or.inr (Or.inl rfl))⟩
        · exact Or.inr ⟨rfl, Or.inr (Or.inr (Or.inr (Or.inl rfl)))⟩
        · rfl
      | noMessage =>
        constructor
        · intro s hs
          cases hs
          exact Or.inr ⟨rfl, Or.inr (Or.inr (Or.inr (Or.inr rfl)))⟩
        · intro e he
          cases he
      | message c tcs =>
        by_cases ht : tcs.isEmpty
        · simp only [ht, if_true]
          by_cases hf : (decide (i = 0) && isTaskQuery text) = true
          · simp only [hf, if_true]
            constructor
            · intro s hs
              cases hs
              exact Or.inl rfl
            · intro e he
              cases he
          · rw [if_neg hf]
            constructor
            · intro s hs
              cases hs
              exact Or.inl rfl
            · intro e he
              cases he
        · simp only [ht, Bool.false_eq_true, if_false]
          cases hrt : runTools ctx env text tcs ups with
          | toContinue ups' => exact ih (i + 1) _ ups' (by omega)
          | toReturn ans sv ups' =>
            constructor
            · intro s hs
              cases hs
              exact Or.inl (runTools_toReturn_saved ctx env text tcs ups ans sv ups' hrt)
            · intro e he
              cases he
          | toThrow k ups' =>
            constructor
            · intro s hs
              cases hs
            · intro e he
              rfl
    · rw [agentLoop]
      constructor
      · intro s hs
        rw [if_neg hi] at hs ⊢
        right
        cases hs
        exact ⟨rfl, Or.inr (Or.inr (Or.inr (Or.inr rfl)))⟩
      · intro e he
        rw [if_neg hi] at he
        cases he

/-- Amended claim C8. Both the user's text and the returned answer are
appended to the conversation store on the shortcut, forced-tool-error,
model-answer and direct tool-answer return paths; the four fixed
completion-service error messages and the loop-overflow message are
returned with nothing appended, and a re-raised error also appends
nothing. -/
theorem conversation_store_saves_by_path (ctx : AgentCtx)
    (teamInfo : Option String) (env : AgentEnv) (text : String) :
    (∀ s, (handleMessage ctx teamInfo env text).result = .ok s →
      (handleMessage ctx teamInfo env text).saved =
          [("user", text), ("assistant", s)] ∨
      ((handleMessage ctx teamInfo env text).saved = [] ∧
        (s = quotaMsg ∨ s = rateLimitMsg ∨ s = invalidKeyMsg ∨ s = modelNotFoundMsg ∨
          s = overflowMsg))) ∧
    (∀ e, (handleMessage ctx teamInfo env text).result = .error e →
      (handleMessage ctx teamInfo env text).saved = []) := by
  cases teamInfo with
  | some r =>
    constructor
    · intro s hs
      cases hs
      exact Or.inl rfl
    · intro e he
      cases he
  | none => exact agentLoop_saved ctx env text 6 0 [] [] (by omega)

theorem envQuotaW_run :
    (handleMessage agentCtxW none envQuotaW "привіт").result = .ok quotaMsg ∧
    (handleMessage agentCtxW none envQuotaW "привіт").saved = [] := by
  constructor
  · show (agentLoop agentCtxW envQuotaW "привіт" 0 [] []).result = .ok quotaMsg
    rw [agentLoop]
    simp [envQuotaW]
  · show (agentLoop agentCtxW envQuotaW "привіт" 0 [] []).saved = []
    rw [agentLoop]
    simp [envQuotaW]

/-- Counterexample to claim C8. On the quota-exhausted completion-service error
path `handleMessage` returns the fixed message with *nothing* appended to
the conversation store, refuting "both texts are appended on every return
path". -/
theorem quota_error_path_saves_nothing :
    (handleMessage agentCtxW none envQuotaW "привіт").result = .ok quotaMsg ∧
    (handleMessage agentCtxW none envQuotaW "привіт").saved = [] :=
  envQuotaW_run

/-- Witness for C8's amended claim at the quota-error environment. -/
theorem conversation_store_saves_by_path_witness :
    (handleMessage agentCtxW none envQuotaW "привіт").saved =
        [("user", "привіт"), ("assistant", quotaMsg)] ∨
      ((handleMessage agentCtxW none envQuotaW "привіт").saved = [] ∧
        (quotaMsg = quotaMsg ∨ quotaMsg = rateLimitMsg ∨ quotaMsg = invalidKeyMsg ∨
          quotaMsg = modelNotFoundMsg ∨ quotaMsg = overflowMsg)) :=
  (conversation_store_saves_by_path agentCtxW none envQuotaW "привіт").1
    quotaMsg envQuotaW_run.1

/-! Counting raw `<` characters through the renderers. -/

theorem ltCount_append (a b : String) : ltCount (a ++ b) = ltCount a + ltCount b := by
  show (a ++ b).data.countP (· == '<') = _
  rw [String.data_append, List.countP_append]
  rfl

theorem escapeHtmlList_no_lt (l : List Char) :
    (escapeHtmlList l).countP (· == '<') = 0 := by
  induction l with
  | nil => rfl
  | cons c cs ih =>
    rw [escapeHtmlList, List.countP_append, ih, Nat.add_zero]
    by_cases h1 : c = '&'
    · rw [if_pos h1]; decide
    · rw [if_neg h1]
      by_cases h2 : c = '<'
      · rw [if_pos h2]; decide
      · rw [if_neg h2]
        by_cases h3 : c = '>'
        · rw [if_pos h3]; decide
        · rw [if_neg h3]
          simp [List.countP_cons, h2]

/-- Code: `escapeHtml` output never contains a raw `<`. -/
theorem ltCount_escapeHtml (s : String) : ltCount (escapeHtml s) = 0 :=
  escapeHtmlList_no_lt s.data

theorem escapeAttrList_lt (l : List Char) :
    (escapeAttrList l).countP (· == '<') = l.countP (· == '<') := by
  induction l with
  | nil => rfl
  | cons c cs ih =>
    rw [escapeAttrList, List.countP_append, ih, List.countP_cons]
    have hchar : ((if c = '&' then "&amp;".data
        else if c = '"' then "&quot;".data else [c]).countP (· == '<')) =
        (if (c == '<') = true then 1 else 0) := by
      by_cases h1 : c = '&'
      · subst h1; decide
      · rw [if_neg h1]
        by_cases h2 : c = '"'
        · subst h2; decide
        · rw [if_neg h2, List.countP_cons]
          simp
    rw [hchar]
    omega

/-- Code: `escapeAttr` leaves `<` characters alone (attribute context escapes
only `&` and `"`). -/
theorem ltCount_escapeAttr (s : String) : ltCount (escapeAttr s) = ltCount s :=
  escapeAttrList_lt s.data

theorem natDigitsAux_no_lt : ∀ fuel n, (natDigitsAux fuel n).countP (· == '<') = 0 := by
  intro fuel
  induction fuel with
  | zero => intro n; rfl
  | succ f ih =>
    intro n
    match n with
    | 0 => rfl
    | m + 1 =>
      rw [natDigitsAux, List.countP_append, ih]
      have hr : (m + 1) % 10 < 10 := Nat.mod_lt _ (by decide)
      set r := (m + 1) % 10 with hrdef
      interval_cases r <;> decide

theorem natDigits_no_lt (n : Nat) : (natDigits n).countP (· == '<') = 0 :=
  natDigitsAux_no_lt n n

theorem ltCount_natToStr (n : Nat) : ltCount (natToStr n) = 0 := by
  rw [natToStr]
  by_cases h : n = 0
  · rw [if_pos h]; decide
  · rw [if_neg h]; exact natDigits_no_lt n

theorem ltCount_twoDigit (n : Nat) : ltCount (twoDigit n) = 0 := by
  rw [twoDigit]
  by_cases h : n < 10
  · rw [if_pos h, ltCount_append, ltCount_natToStr]; decide
  · rw [if_neg h]; exact ltCount_natToStr n

theorem ltCount_formatDueDM (sysTz ms : Int) : ltCount (formatDueDM sysTz ms) = 0 := by
  rw [formatDueDM, ltCount_append, ltCount_append, ltCount_twoDigit, ltCount_twoDigit]
  decide

theorem ltCount_displayDue (sysTz : Int) (d : JsDateVal) :
    ltCount (displayDue sysTz d) = 0 := by
  cases d with
  | num ms => exact ltCount_formatDueDM sysTz ms
  | nonNum => show ltCount "Invalid Date" = 0; decide
  | null => show ltCount "—" = 0; decide
  | empty => show ltCount "—" = 0; decide

theorem map_sum_eq {α : Type} (l : List α) (f : α → Nat) (c : Nat)
    (h : ∀ a ∈ l, f a = c) : (l.map f).sum = c * l.length := by
  induction l with
  | nil => simp
  | cons a rest ih =>
    rw [List.map_cons, List.sum_cons, h a (by simp), ih (fun x hx => h x (by simp [hx]))]
    simp [Nat.mul_succ]
    omega

theorem ltCount_strJoin (sep : String) (hsep : ltCount sep = 0) :
    ∀ l : List String, ltCount (strJoin sep l) = (l.map ltCount).sum := by
  intro l
  induction l with
  | nil => rfl
  | cons a rest ih =>
    cases rest with
    | nil => show ltCount a = _; simp
    | cons b r2 =>
      show ltCount (a ++ sep ++ strJoin sep (b :: r2)) = _
      rw [ltCount_append, ltCount_append, hsep, ih]
      simp [List.sum_cons]

theorem ltCount_strConcat : ∀ l : List String, ltCount (strConcat l) = (l.map ltCount).sum := by
  intro l
  induction l with
  | nil => rfl
  | cons a rest ih =>
    show ltCount (a ++ strConcat rest) = _
    rw [ltCount_append, ih, List.map_cons, List.sum_cons]

theorem ltCount_renderRoleOfMember (m : MemberConfig) :
    ltCount (renderRoleOfMember m) = 4 := by
  rw [renderRoleOfMember, ltCount_append, ltCount_append, ltCount_append,
    ltCount_escapeHtml, ltCount_escapeHtml]
  decide

theorem ltCount_renderRolesList (ms : List MemberConfig) :
    ltCount (renderRolesList ms) = 2 + 2 * (visibleMembers ms).length := by
  rw [renderRolesList, ltCount_append, ltCount_strJoin "\n" (by decide)]
  rw [List.map_map]
  rw [map_sum_eq _ _ 2 (by
    intro m hm
    show ltCount ("• <b>" ++ escapeHtml m.name ++ "</b> — " ++ escapeHtml (roleTextOf m)) = 2
    rw [ltCount_append, ltCount_append, ltCount_append, ltCount_escapeHtml,
      ltCount_escapeHtml]
    decide)]
  have : ltCount "👥 <b>Ролі в команді</b>\n\n" = 2 := by decide
  omega

theorem ltCount_renderTeamCount (ms : List MemberConfig) :
    ltCount (renderTeamCount ms) = 2 := by
  rw [renderTeamCount, ltCount_append, ltCount_append, ltCount_natToStr]
  decide

theorem ltCount_renderTeamList (ms : List MemberConfig) :
    ltCount (renderTeamList ms) = 4 := by
  rw [renderTeamList, ltCount_append, ltCount_append, ltCount_append, ltCount_natToStr,
    ltCount_strJoin "\n" (by decide), List.map_map]
  rw [map_sum_eq _ _ 0 (by
    intro m hm
    show ltCount ("• " ++ escapeHtml m.name) = 0
    rw [ltCount_append, ltCount_escapeHtml]
    decide)]
  have h1 : ltCount "👥 <b>Команда</b>\n\n" = 2 := by decide
  have h2 : ltCount "\n\n<b>Всього:</b> " = 2 := by decide
  omega

theorem escapeAttrList_ne_nil (c : Char) (cs : List Char) :
    escapeAttrList (c :: cs) ≠ [] := by
  rw [escapeAttrList]
  by_cases h1 : c = '&'
  · rw [if_pos h1]; simp
  · rw [if_neg h1]
    by_cases h2 : c = '"' <;> simp [h2]

theorem ltCount_renderTaskBlock (sysTz : Int) (t : TaskData)
    (h : ltCount (taskUrlRaw t) = 0) :
    ltCount (renderTaskBlock sysTz t) = taskBlockLt t := by
  have l1 : ltCount "<b>Таска:</b> " = 2 := by decide
  have l2 : ltCount "\n" = 0 := by decide
  have l3 : ltCount "<b>Статус:</b> " = 2 := by decide
  have l4 : ltCount "<b>Дедлайн:</b> " = 2 := by decide
  have l5 : ltCount "🔗 Відкрити\n\n" = 0 := by decide
  have l6 : ltCount "<a href=\"" = 1 := by decide
  have l7 : ltCount "\">🔗 Відкрити</a>\n\n" = 1 := by decide
  rw [renderTaskBlock, taskBlockLt]
  by_cases hu : (taskUrlRaw t).isEmpty
  · simp only [hu, if_true]
    have hemp : ("" : String).isEmpty = true := rfl
    simp only [hemp, if_true]
    simp only [ltCount_append, ltCount_escapeHtml, ltCount_displayDue]
    omega
  · simp only [hu, Bool.false_eq_true, if_false]
    have hne : (escapeAttr (taskUrlRaw t)).isEmpty = false := by
      cases hb : (escapeAttr (taskUrlRaw t)).isEmpty
      · rfl
      · exfalso
        have hstr : escapeAttr (taskUrlRaw t) = "" := (String.isEmpty_iff _).mp hb
        have hdata : escapeAttrList (taskUrlRaw t).data = [] :=
          congrArg String.data hstr
        cases hd : (taskUrlRaw t).data with
        | nil =>
          have : taskUrlRaw t = "" := String.ext (by rw [hd])
          rw [this] at hu
          exact hu rfl
        | cons c cs =>
          rw [hd] at hdata
          exact escapeAttrList_ne_nil c cs hdata
    simp only [hne, Bool.false_eq_true, if_false]
    simp only [ltCount_append, ltCount_escapeHtml, ltCount_displayDue,
      ltCount_escapeAttr, h]
    omega

theorem map_map_congr {α β : Type} (f : α → β) (cnt : β → Nat) (tgt : α → Nat) :
    ∀ l : List α, (∀ a ∈ l, cnt (f a) = tgt a) →
      (l.map f).map cnt = l.map tgt := by
  intro l
  induction l with
  | nil => intro _; rfl
  | cons a as ih =>
    intro h
    simp only [List.map_cons]
    rw [h a (by simp), ih (fun x hx => h x (by simp [hx]))]

theorem ltCount_renderGroup (sysTz : Int) (g : String × List TaskData)
    (h : ∀ t ∈ g.2, ltCount (taskUrlRaw t) = 0) :
    ltCount (renderGroup sysTz g) = groupLt g := by
  rw [renderGroup, groupLt]
  simp only [ltCount_append]
  rw [ltCount_escapeHtml, ltCount_strConcat]
  rw [map_map_congr (renderTaskBlock sysTz) ltCount taskBlockLt g.2
    (fun t ht => ltCount_renderTaskBlock sysTz t (h t ht))]
  have : ltCount "<b>Проект:</b> " = 2 := by decide
  have : ltCount "\n" = 0 := by decide
  omega

theorem groupUpsert_mem (k : String) (t : TaskData) :
    ∀ gs g', g' ∈ groupUpsert k t gs → ∀ t', t' ∈ g'.2 →
      t' = t ∨ ∃ g0 ∈ gs, t' ∈ g0.2 := by
  intro gs
  induction gs with
  | nil =>
    intro g' hg' t' ht'
    rw [groupUpsert] at hg'
    rcases List.mem_singleton.mp hg' with h
    subst h
    rcases List.mem_singleton.mp ht' with h
    exact Or.inl h
  | cons p rest ih =>
    obtain ⟨k', ts⟩ := p
    intro g' hg' t' ht'
    rw [groupUpsert] at hg'
    by_cases hk : k' = k
    · rw [if_pos hk] at hg'
      rcases List.mem_cons.mp hg' with h | h
      · subst h
        rcases List.mem_append.mp ht' with h' | h'
        · exact Or.inr ⟨(k', ts), by simp, h'⟩
        · exact Or.inl (List.mem_singleton.mp h')
      · exact Or.inr ⟨g', by simp [h], ht'⟩
    · rw [if_neg hk] at hg'
      rcases List.mem_cons.mp hg' with h | h
      · subst h
        exact Or.inr ⟨(k', ts), by simp, ht'⟩
      · rcases ih g' h t' ht' with h' | ⟨g0, hg0, ht0⟩
        · exact Or.inl h'
        · exact Or.inr ⟨g0, by simp [hg0], ht0⟩

theorem groupFold_mem :
    ∀ (l : List TaskData) (gs : List (String × List TaskData)) g',
      g' ∈ l.foldl (fun g t => groupUpsert (projectNameOf t) t g) gs →
      ∀ t', t' ∈ g'.2 → (∃ g0 ∈ gs, t' ∈ g0.2) ∨ t' ∈ l := by
  intro l
  induction l with
  | nil => exact fun gs g' hg' t' ht' => Or.inl ⟨g', hg', ht'⟩
  | cons x xs ih =>
    intro gs g' hg' t' ht'
    rcases ih (groupUpsert (projectNameOf x) x gs) g' hg' t' ht' with ⟨g0, hg0, ht0⟩ | h
    · rcases groupUpsert_mem (projectNameOf x) x gs g0 hg0 t' ht0 with h | ⟨g1, hg1, ht1⟩
      · exact Or.inr (by simp [h])
      · exact Or.inl ⟨g1, hg1, ht1⟩
    · exact Or.inr (by simp [h])

/-- A task in some bucket of `groupByProject l` is a task of `l`. -/
theorem groupByProject_mem (l : List TaskData) (g : String × List TaskData)
    (hg : g ∈ groupByProject l) (t : TaskData) (ht : t ∈ g.2) : t ∈ l := by
  rcases groupFold_mem l [] g hg t ht with ⟨g0, hg0, _⟩ | h
  · cases hg0
  · exact h

theorem ltCount_formatTasksAnswer (sysTz : Int) (teamId : String) (ft : FilterJS)
    (en ei : Option String) (tasks : List TaskData)
    (hteam : ltCount teamId = 0)
    (hurl : ∀ t ∈ tasks, ltCount (taskUrlRaw t) = 0) :
    ltCount (formatTasksAnswer sysTz teamId ft en ei tasks) = expectedAnswerLt tasks := by
  have htitle : ltCount (filterTitle ft) = 0 := by cases ft <;> decide
  rw [formatTasksAnswer, expectedAnswerLt]
  by_cases he : tasks.isEmpty
  · simp only [he, if_true]
    rw [ltCount_append, ltCount_append, htitle]
    decide
  · simp only [he, Bool.false_eq_true, if_false]
    have hpu : ltCount (escapeAttr (peopleUrl teamId)) = 0 := by
      rw [ltCount_escapeAttr, peopleUrl, ltCount_append, ltCount_append, hteam]
      decide
    have hgroups : ltCount (strConcat
        ((groupByProject (tasks.take 25)).map (renderGroup sysTz))) =
        ((groupByProject (tasks.take 25)).map groupLt).sum := by
      rw [ltCount_strConcat]
      rw [map_map_congr (renderGroup sysTz) ltCount groupLt (groupByProject (tasks.take 25))
        (fun g hg => ltCount_renderGroup sysTz g
          (fun t ht => hurl t (List.take_subset 25 tasks (groupByProject_mem _ g hg t ht))))]
    have l1 : ltCount "<b>" = 1 := by decide
    have l2 : ltCount "</b> — " = 1 := by decide
    have l3 : ltCount "<a href=\"" = 1 := by decide
    have l4 : ltCount "\">" = 0 := by decide
    have l5 : ltCount "</a>" = 1 := by decide
    have l6 : ltCount " (" = 0 := by decide
    have l7 : ltCount ")\n\n" = 0 := by decide
    by_cases hm : 25 < tasks.length
    · simp only [hm, if_true]
      simp only [ltCount_append, ltCount_escapeHtml, ltCount_natToStr, hgroups, hpu,
        htitle]
      have : ltCount "<i>+ ще " = 1 := by decide
      have : ltCount "</i>" = 1 := by decide
      omega
    · simp only [hm, if_false]
      simp only [ltCount_append, ltCount_escapeHtml, ltCount_natToStr, hgroups, hpu,
        htitle]
      have : ltCount "" = 0 := by decide
      omega

/-- Counterexample to claim C9. The statistics leaderboard interpolates the
assignee name with no escaping at all: the rendered report contains the
raw `<script>alert(1)</script>` and no escaped `&lt;` anywhere. -/
theorem leaderboard_embeds_raw_assignee_name :
    strIncludes (generateOverdueStats tzW nowW [xssTaskW])
      "<script>alert(1)</script>" = true ∧
    strIncludes (generateOverdueStats tzW nowW [xssTaskW]) "&lt;" = false := by
  have hfilter : (statEntries tzW nowW [xssTaskW]).filter (fun s => 0 < s.total) =
      [xssEntryW] := by decide
  have hsorted : sortedStats tzW nowW [xssTaskW] = [xssEntryW] := by
    rw [sortedStats, hfilter, List.mergeSort_singleton]
  rw [generateOverdueStats]
  rw [hsorted]
  decide

/-- Amended claim C9. All interpolated text in the team-directory shortcut
answers and in the `load_and_filter_tasks` formatted answer passes through
HTML escaping (`escapeHtml` for text, `escapeAttr` for attribute values):
escaped text contributes no raw `<`, so the number of `<` characters in
each rendered answer equals the count owed to its fixed markup, regardless
of names, roles, statuses or task names.  (The statistics leaderboard does
not escape; see the counterexample.) -/
theorem interpolated_text_is_escaped (sysTz : Int) (teamId : String) (ft : FilterJS)
    (en ei : Option String) (tasks : List TaskData) (ms : List MemberConfig)
    (m : MemberConfig) (s : String) :
    ltCount (escapeHtml s) = 0 ∧
    ltCount (renderRoleOfMember m) = 4 ∧
    ltCount (renderRolesList ms) = 2 + 2 * (visibleMembers ms).length ∧
    ltCount (renderTeamCount ms) = 2 ∧
    ltCount (renderTeamList ms) = 4 ∧
    (ltCount teamId = 0 → (∀ t ∈ tasks, ltCount (taskUrlRaw t) = 0) →
      ltCount (formatTasksAnswer sysTz teamId ft en ei tasks) = expectedAnswerLt tasks) :=
  ⟨ltCount_escapeHtml s, ltCount_renderRoleOfMember m, ltCount_renderRolesList ms,
    ltCount_renderTeamCount ms, ltCount_renderTeamList ms,
    fun hteam hurl => ltCount_formatTasksAnswer sysTz teamId ft en ei tasks hteam hurl⟩

/-- Witness for C9's amended claim: the formatted answer for one concrete
task contains exactly the `<` characters of its fixed markup. -/
theorem interpolated_text_is_escaped_witness :
    ltCount (escapeHtml "<script>") = 0 ∧
    ltCount (formatTasksAnswer tzW "9013000000" .overdue (some "Ілля") (some "11")
      [taskAW]) = expectedAnswerLt [taskAW] := by
  have h := interpolated_text_is_escaped tzW "9013000000" .overdue (some "Ілля")
    (some "11") [taskAW] [] memberW "<script>"
  refine ⟨h.1, h.2.2.2.2.2 (by decide) ?_⟩
  intro t ht
  rcases List.mem_singleton.mp ht with h'
  rw [h']
  decide

end NooTasks
